import Mathlib

/-!
Verification of the NBA shot-data core: season resolution and player loading
(`nba_data_manager.py`), feature derivation and filter predicates
(`nba_filter_engine.py`), and zone aggregation (`nba_shot_analyzer.py`),
shallowly embedded as executable Lean definitions.

Python strings are modelled through their character lists; the helper
functions below (`pySplit`, `pyReplaceAll`, `lowerStr`, ...) are executable
models of the corresponding Python `str` methods restricted to ASCII data,
and `natStr`/`decDigits` model decimal formatting (`str(n)`, f-strings).
-/

set_option maxHeartbeats 1000000

/-! ### Python string primitives -/

/-- ASCII test used by Python `str.isdigit` on the data we model. -/
def isDigitChar (c : Char) : Bool := '0' ≤ c && c ≤ '9'

/-- ASCII lower-casing of one character (Python `str.lower`). -/
def lowerChar (c : Char) : Char :=
  if 'A' ≤ c && c ≤ 'Z' then Char.ofNat (c.toNat + 32) else c

/-- ASCII upper-casing of one character (Python `str.upper`). -/
def upperChar (c : Char) : Char :=
  if 'a' ≤ c && c ≤ 'z' then Char.ofNat (c.toNat - 32) else c

/-- Python `s.lower()` on ASCII strings. -/
def lowerStr (s : String) : String := ⟨s.data.map lowerChar⟩

/-- Python `s.upper()` on ASCII strings. -/
def upperStr (s : String) : String := ⟨s.data.map upperChar⟩

/-- Split a character list at every occurrence of `c` (Python `str.split(c)`). -/
def splitOnCharAux (c : Char) : List Char → List (List Char)
  | [] => [[]]
  | x :: xs =>
    match splitOnCharAux c xs with
    | [] => [[x]]
    | h :: t => if x = c then [] :: h :: t else (x :: h) :: t

/-- Python `s.split(c)` for a one-character separator. -/
def pySplit (s : String) (c : Char) : List String :=
  (splitOnCharAux c s.data).map String.mk

/-- Fuel-driven left-to-right replacement of every non-overlapping occurrence
of `pat` (Python `str.replace`). -/
def pyReplaceAllAux (pat rep : List Char) : Nat → List Char → List Char
  | _, [] => []
  | 0, l => l
  | fuel + 1, x :: xs =>
    if pat.isPrefixOf (x :: xs) then
      rep ++ pyReplaceAllAux pat rep fuel (List.drop pat.length (x :: xs))
    else
      x :: pyReplaceAllAux pat rep fuel xs

/-- Python `s.replace(pat, rep)`. -/
def pyReplaceAll (s pat rep : String) : String :=
  ⟨pyReplaceAllAux pat.data rep.data s.data.length s.data⟩

/-- Python `s.endswith(t)`. -/
def pyEndsWith (s t : String) : Bool := List.isSuffixOf t.data s.data

/-- Python `s.startswith(t)` (also pandas `.str.startswith`). -/
def pyStartsWith (s t : String) : Bool := List.isPrefixOf t.data s.data

/-- Python `s[:n]`. -/
def pyTake (s : String) (n : Nat) : String := ⟨s.data.take n⟩

/-- Python `s[n:]`. -/
def pyDropStr (s : String) (n : Nat) : String := ⟨s.data.drop n⟩

/-- Python `pat in s` substring test (also pandas `.str.contains` with a
literal pattern). -/
def containsSub (s pat : String) : Bool :=
  (List.range (s.data.length + 1)).any (fun i => List.isPrefixOf pat.data (s.data.drop i))

/-- pandas `.str.contains(pat, case=False)` with a literal pattern. -/
def containsCI (s pat : String) : Bool := containsSub (lowerStr s) (lowerStr pat)

/-- Python `s.isdigit()` on ASCII strings. -/
def isDigitStr (s : String) : Bool := !s.data.isEmpty && s.data.all isDigitChar

/-- Python `int(s)` for a digit string. -/
def strToNat (s : String) : Nat := s.data.foldl (fun a c => a * 10 + (c.toNat - 48)) 0

/-- Lexicographic comparison of character lists, as Python compares strings. -/
def charListLt : List Char → List Char → Bool
  | [], [] => false
  | [], _ :: _ => true
  | _ :: _, [] => false
  | a :: as, b :: bs => if a < b then true else if b < a then false else charListLt as bs

/-- Python `s < t` on strings. -/
def pyStrLt (s t : String) : Bool := charListLt s.data t.data

/-! ### Decimal formatting (`str(n)`, `f"{m:02d}"`) -/

/-- Fuel-driven decimal digits of `n`, most significant first. -/
def decDigitsAux : Nat → Nat → List Nat
  | 0, _ => []
  | fuel + 1, n => if n < 10 then [n] else decDigitsAux fuel (n / 10) ++ [n % 10]

/-- Decimal digits of `n`, most significant first. -/
def decDigits (n : Nat) : List Nat := decDigitsAux (n + 1) n

/-- Character of one decimal digit. -/
def digitChar (d : Nat) : Char := Char.ofNat (48 + d)

/-- Python `str(n)` for a natural number. -/
def natStr (n : Nat) : String := ⟨(decDigits n).map digitChar⟩

/-- Python `str(i)` for an integer. -/
def intStr (i : Int) : String :=
  if i < 0 then "-" ++ natStr i.natAbs else natStr i.natAbs

/-- Python `f"{m:02d}"` for `m < 100`. -/
def pad2 (m : Nat) : String :=
  if m < 10 then ⟨'0' :: (decDigits m).map digitChar⟩ else ⟨(decDigits m).map digitChar⟩

theorem decDigitsAux_congr : ∀ (f₁ f₂ n : Nat), n < f₁ → n < f₂ →
    decDigitsAux f₁ n = decDigitsAux f₂ n := by
  intro f₁
  induction f₁ with
  | zero => intro f₂ n h1 _; omega
  | succ f ih =>
    intro f₂ n h1 h2
    match f₂, h2 with
    | f₂' + 1, _ =>
      simp only [decDigitsAux]
      by_cases hn : n < 10
      · simp [hn]
      · simp only [if_neg hn]
        have hd : n / 10 < n := Nat.div_lt_self (by omega) (by omega)
        rw [ih f₂' (n / 10) (by omega) (by omega)]

theorem decDigits_eq_of_ge (n : Nat) (h : 10 ≤ n) :
    decDigits n = decDigits (n / 10) ++ [n % 10] := by
  have hd : n / 10 < n := Nat.div_lt_self (by omega) (by omega)
  show decDigitsAux (n + 1) n = decDigitsAux (n / 10 + 1) (n / 10) ++ [n % 10]
  conv_lhs => rw [decDigitsAux]
  rw [if_neg (by omega)]
  rw [decDigitsAux_congr n (n / 10 + 1) (n / 10) (by omega) (by omega)]

theorem decDigits_of_lt (n : Nat) (h : n < 10) : decDigits n = [n] := by
  show decDigitsAux (n + 1) n = [n]
  rw [decDigitsAux]
  simp [h]

theorem decDigits_four (n : Nat) (h1 : 1000 ≤ n) (h2 : n < 10000) :
    decDigits n = [n / 1000, n / 100 % 10, n / 10 % 10, n % 10] := by
  rw [decDigits_eq_of_ge n (by omega)]
  rw [decDigits_eq_of_ge (n / 10) (by omega)]
  rw [decDigits_eq_of_ge (n / 10 / 10) (by omega)]
  rw [decDigits_of_lt (n / 10 / 10 / 10) (by omega)]
  have e1 : n / 10 / 10 / 10 = n / 1000 := by omega
  have e2 : n / 10 / 10 % 10 = n / 100 % 10 := by omega
  have e3 : n / 10 % 10 = n / 10 % 10 := rfl
  rw [e1, e2]
  simp

theorem pyDrop_natStr_eq_pad2 (n : Nat) (h1 : 1000 ≤ n) (h2 : n < 10000) :
    pyDropStr (natStr n) 2 = pad2 (n % 100) := by
  unfold natStr pyDropStr pad2
  rw [decDigits_four n h1 h2]
  by_cases hc : n % 100 < 10
  · rw [if_pos hc, decDigits_of_lt (n % 100) hc]
    have e1 : n / 10 % 10 = 0 := by omega
    have e2 : n % 10 = n % 100 := by omega
    simp only [List.map_cons, List.map_nil, List.drop]
    rw [e1, e2]
    rfl
  · rw [if_neg hc]
    rw [decDigits_eq_of_ge (n % 100) (by omega), decDigits_of_lt (n % 100 / 10) (by omega)]
    have e1 : n % 100 / 10 = n / 10 % 10 := by omega
    have e2 : n % 100 % 10 = n % 10 := by omega
    simp only [List.map_cons, List.map_nil, List.map_append, List.drop]
    rw [e1, e2]
    rfl

/-! ### Dates

`pandas` timestamps restricted to the representable year range
(nanosecond timestamps cover 1677-09-21 .. 2262-04-11; we use the inner
full years 1678..2261, which covers every NBA season). -/

/-- A calendar date. -/
structure Date where
  year : Nat
  month : Nat
  day : Nat
deriving DecidableEq, Repr

/-- Gregorian leap-year test. -/
def isLeapYear (y : Nat) : Bool := (y % 4 == 0 && y % 100 != 0) || (y % 400 == 0)

/-- Days in a month of the Gregorian calendar. -/
def daysInMonth (y m : Nat) : Nat :=
  if m = 2 then (if isLeapYear y then 29 else 28)
  else if m = 4 ∨ m = 6 ∨ m = 9 ∨ m = 11 then 30
  else 31

/-- Numeric key giving the chronological order on dates. -/
def dateVal (d : Date) : Nat := d.year * 10000 + d.month * 100 + d.day

/-- One cell of the `GAME_DATE` column parsed with
`pd.to_datetime(..., format="%Y%m%d", errors="coerce")`: the cell parses
exactly when it denotes a valid calendar date in the representable range. -/
def parseYYYYMMDD (n : Nat) : Option Date :=
  if 1678 ≤ n / 10000 ∧ n / 10000 ≤ 2261 ∧ 1 ≤ n / 100 % 100 ∧ n / 100 % 100 ≤ 12
      ∧ 1 ≤ n % 100 ∧ n % 100 ≤ daysInMonth (n / 10000) (n / 100 % 100) then
    some ⟨n / 10000, n / 100 % 100, n % 100⟩
  else none

/-- Days of the year strictly before month `m`. -/
def daysBeforeMonth (y m : Nat) : Nat :=
  (List.range (m - 1)).foldl (fun a i => a + daysInMonth y (i + 1)) 0

/-- Rata-die day count of a Gregorian date; differences of `dayNumber` model
`(t₂ - t₁).days` on pandas timestamps. -/
def dayNumber (d : Date) : Nat :=
  (d.year - 1) * 365 + (d.year - 1) / 4 - (d.year - 1) / 100 + (d.year - 1) / 400
    + daysBeforeMonth d.year d.month + d.day

theorem daysInMonth_le (y m : Nat) : daysInMonth y m ≤ 31 := by
  unfold daysInMonth
  split
  · split <;> omega
  · split <;> omega

theorem parseYYYYMMDD_bounds {n : Nat} {d : Date} (h : parseYYYYMMDD n = some d) :
    1678 ≤ d.year ∧ d.year ≤ 2261 ∧ 1 ≤ d.month ∧ d.month ≤ 12 ∧ 1 ≤ d.day ∧ d.day ≤ 31 := by
  unfold parseYYYYMMDD at h
  split at h
  case isTrue hc =>
    cases h
    refine ⟨hc.1, hc.2.1, hc.2.2.1, hc.2.2.2.1, hc.2.2.2.2.1, ?_⟩
    exact le_trans hc.2.2.2.2.2 (daysInMonth_le _ _)
  case isFalse => cases h

/-! ### Minimum and maximum of a column (pandas `Series.min` / `Series.max`) -/

/-- First minimiser of `f` over a list (pandas `Series.min` semantics). -/
def listMinBy (f : α → Nat) : List α → Option α
  | [] => none
  | x :: t => some (t.foldl (fun a b => if f b < f a then b else a) x)

/-- First maximiser of `f` over a list (pandas `Series.max` semantics). -/
def listMaxBy (f : α → Nat) : List α → Option α
  | [] => none
  | x :: t => some (t.foldl (fun a b => if f a < f b then b else a) x)

theorem listMinBy_foldl_mem (f : α → Nat) (t : List α) (x : α) :
    t.foldl (fun a b => if f b < f a then b else a) x = x
      ∨ t.foldl (fun a b => if f b < f a then b else a) x ∈ t := by
  induction t generalizing x with
  | nil => exact Or.inl rfl
  | cons y t ih =>
    simp only [List.foldl_cons]
    by_cases hy : f y < f x
    · rw [if_pos hy]
      rcases ih y with h | h
      · exact Or.inr (by rw [h]; exact List.mem_cons_self _ _)
      · exact Or.inr (List.mem_cons_of_mem _ h)
    · rw [if_neg hy]
      rcases ih x with h | h
      · exact Or.inl h
      · exact Or.inr (List.mem_cons_of_mem _ h)

theorem listMinBy_mem {f : α → Nat} {l : List α} {m : α} (h : listMinBy f l = some m) :
    m ∈ l := by
  match l with
  | [] => cases h
  | x :: t =>
    simp only [listMinBy, Option.some.injEq] at h
    rcases listMinBy_foldl_mem f t x with h' | h'
    · rw [← h]; rw [h']; exact List.mem_cons_self _ _
    · rw [← h]; exact List.mem_cons_of_mem _ h'

theorem listMaxBy_isSome {f : α → Nat} {l : List α} (h : l ≠ []) :
    ∃ m, listMaxBy f l = some m := by
  match l with
  | [] => exact absurd rfl h
  | x :: t => exact ⟨_, rfl⟩

/-! ### Season Resolver (`NBADataManager._detect_season_from_file`) -/

/-- `season_start_year` from the minimum parsed date: the date's year when its
month is October or later, else the year before. -/
def seasonStartYearOf (d : Date) : Nat := if d.month ≥ 10 then d.year else d.year - 1

/-- The season label exactly as the code formats it:
`f"{y}-{str(y + 1)[2:]}"`. -/
def seasonLabelCode (y : Nat) : String := natStr y ++ "-" ++ pyDropStr (natStr (y + 1)) 2

/-- The season label as the specification words it:
`"{y}-{(y + 1) mod 100:02d}"` (refinement target for C1). -/
def seasonLabelSpec (y : Nat) : String := natStr y ++ "-" ++ pad2 ((y + 1) % 100)

/-- The parsed dates of a `GAME_DATE` sample, unparseable cells dropped. -/
def parsedDates (cells : List Nat) : List Date := cells.filterMap parseYYYYMMDD

/-- The minimum parsed date of a sample. -/
def minParsedDate (cells : List Nat) : Option Date := listMinBy dateVal (parsedDates cells)

/-- `_detect_season_from_file`, fed with the first-1000-row `GAME_DATE` sample:
`none` models a missing `GAME_DATE` column or a read error (both caught and
reported as "no season"); out-of-window date ranges are warned about but the
label is still returned. -/
def detectSeasonFromSample (content : Option (List Nat)) : Option String :=
  match content with
  | none => none
  | some cells =>
    match listMinBy dateVal (parsedDates cells), listMaxBy dateVal (parsedDates cells) with
    | some minD, some maxD =>
      let y := seasonStartYearOf minD
      let season := seasonLabelCode y
      if dateVal ⟨y, 10, 1⟩ ≤ dateVal minD ∧ dateVal maxD ≤ dateVal ⟨y + 1, 6, 30⟩ then
        some season
      else
        some season
    | _, _ => none

theorem seasonLabelCode_eq_spec (y : Nat) (h1 : 1677 ≤ y) (h2 : y ≤ 2261) :
    seasonLabelCode y = seasonLabelSpec y := by
  unfold seasonLabelCode seasonLabelSpec
  rw [pyDrop_natStr_eq_pad2 (y + 1) (by omega) (by omega)]

theorem detectSeason_eq_code_label (cells : List Nat) (d : Date)
    (hmin : minParsedDate cells = some d) :
    detectSeasonFromSample (some cells) = some (seasonLabelCode (seasonStartYearOf d)) := by
  have hne : parsedDates cells ≠ [] := by
    intro hnil
    rw [minParsedDate, hnil] at hmin
    cases hmin
  obtain ⟨mx, hmx⟩ := listMaxBy_isSome (f := dateVal) hne
  have hmin' : listMinBy dateVal (parsedDates cells) = some d := hmin
  simp only [detectSeasonFromSample]
  rw [hmin', hmx]
  split
  all_goals rw [ite_self]
  all_goals simp_all

/-- C1: for a shotdetail sample whose `GAME_DATE` column has at least one date
parseable as `%Y%m%d`, the Season Resolver returns the label
`"{Y}-{(Y+1) mod 100:02d}"` where `Y` is the minimum parsed date's year when
that date's month is ≥ 10 and that year minus one otherwise; a sample outside
the Oct 1 .. Jun 30 window is still labelled (warned, not rejected), and a
sample fully inside `[Oct 1 of Y, Jun 30 of Y+1]` yields exactly
`"{Y}-{(Y+1) mod 100:02d}"`. -/
theorem C1_season_resolution (cells : List Nat) (d : Date)
    (hmin : minParsedDate cells = some d) :
    detectSeasonFromSample (some cells) = some (seasonLabelSpec (seasonStartYearOf d))
    ∧ (∀ Y : Nat, (∀ e ∈ parsedDates cells,
          dateVal ⟨Y, 10, 1⟩ ≤ dateVal e ∧ dateVal e ≤ dateVal ⟨Y + 1, 6, 30⟩) →
        detectSeasonFromSample (some cells) = some (seasonLabelSpec Y)) := by
  have hdmem : d ∈ parsedDates cells := listMinBy_mem hmin
  obtain ⟨n, _, hn⟩ := List.mem_filterMap.1 hdmem
  have hb := parseYYYYMMDD_bounds hn
  have hcode := detectSeason_eq_code_label cells d hmin
  have hy1 : 1677 ≤ seasonStartYearOf d := by
    unfold seasonStartYearOf
    split <;> omega
  have hy2 : seasonStartYearOf d ≤ 2261 := by
    unfold seasonStartYearOf
    split <;> omega
  constructor
  · rw [hcode, seasonLabelCode_eq_spec _ hy1 hy2]
  · intro Y hwin
    have hw := hwin d hdmem
    have hYd : seasonStartYearOf d = Y := by
      unfold seasonStartYearOf
      unfold dateVal at hw
      simp only at hw
      by_cases hm : d.month ≥ 10
      · rw [if_pos hm]; omega
      · rw [if_neg hm]; omega
    rw [hcode, hYd, seasonLabelCode_eq_spec _ (by omega) (by omega)]

/-- Witness for C1: a sample of two November/January cells of the 2021-22
season; the minimum parsed date is 2021-11-05, `Y = 2021`, and the sample is
inside the 2021-22 window. -/
theorem C1_season_resolution_witness :
    minParsedDate [20211105, 20220110] = some ⟨2021, 11, 5⟩
    ∧ (detectSeasonFromSample (some [20211105, 20220110])
          = some (seasonLabelSpec (seasonStartYearOf ⟨2021, 11, 5⟩))
       ∧ (∀ Y : Nat, (∀ e ∈ parsedDates [20211105, 20220110],
             dateVal ⟨Y, 10, 1⟩ ≤ dateVal e ∧ dateVal e ≤ dateVal ⟨Y + 1, 6, 30⟩) →
           detectSeasonFromSample (some [20211105, 20220110]) = some (seasonLabelSpec Y))) :=
  ⟨by decide, C1_season_resolution [20211105, 20220110] ⟨2021, 11, 5⟩ (by decide)⟩

/-! ### Association lists with Python `dict` semantics

`alookup` finds the first binding; `dinsert` models `d[k] = v` (replace in
place, else append); `mdSet`/`mdSetIfAbsent` are the nested forms used by
`_build_metadata` on `metadata_cache`. -/

/-- First-match lookup (Python `d[k]` / `k in d`). -/
def alookup {κ α : Type} [DecidableEq κ] : List (κ × α) → κ → Option α
  | [], _ => none
  | (k', v) :: t, k => if k' = k then some v else alookup t k

/-- Python `d[k] = v`: replace the binding in place, or append a new one. -/
def dinsert {κ α : Type} [DecidableEq κ] : List (κ × α) → κ → α → List (κ × α)
  | [], k, v => [(k, v)]
  | (k', v') :: t, k, v => if k' = k then (k, v) :: t else (k', v') :: dinsert t k v

theorem alookup_append {κ α : Type} [DecidableEq κ] (l₁ l₂ : List (κ × α)) (k : κ) :
    alookup (l₁ ++ l₂) k
      = match alookup l₁ k with
        | some v => some v
        | none => alookup l₂ k := by
  induction l₁ with
  | nil => rfl
  | cons e t ih =>
    rw [List.cons_append]
    show (if e.1 = k then some e.2 else alookup (t ++ l₂) k) = _
    by_cases he : e.1 = k
    · rw [if_pos he]
      show _ = (match (if e.1 = k then some e.2 else alookup t k) with
        | some v => some v
        | none => alookup l₂ k)
      rw [if_pos he]
    · rw [if_neg he, ih]
      show _ = (match (if e.1 = k then some e.2 else alookup t k) with
        | some v => some v
        | none => alookup l₂ k)
      rw [if_neg he]

theorem alookup_dinsert_self {κ α : Type} [DecidableEq κ] (l : List (κ × α)) (k : κ) (v : α) :
    alookup (dinsert l k v) k = some v := by
  induction l with
  | nil => simp [dinsert, alookup]
  | cons e t ih =>
    show alookup (if e.1 = k then (k, v) :: t else e :: dinsert t k v) k = some v
    by_cases he : e.1 = k
    · rw [if_pos he]; simp [alookup]
    · rw [if_neg he]
      show (if e.1 = k then some e.2 else alookup (dinsert t k v) k) = some v
      rw [if_neg he, ih]

theorem alookup_dinsert_ne {κ α : Type} [DecidableEq κ] (l : List (κ × α)) (k : κ) (v : α)
    (k' : κ) (h : k ≠ k') : alookup (dinsert l k v) k' = alookup l k' := by
  induction l with
  | nil => simp [dinsert, alookup, h]
  | cons e t ih =>
    show alookup (if e.1 = k then (k, v) :: t else e :: dinsert t k v) k' = _
    by_cases he : e.1 = k
    · rw [if_pos he]
      show (if k = k' then some v else alookup t k') = (if e.1 = k' then some e.2 else alookup t k')
      rw [if_neg h, if_neg (by rw [he]; exact h)]
    · rw [if_neg he]
      show (if e.1 = k' then some e.2 else alookup (dinsert t k v) k') = _
      rw [ih]
      rfl

/-! ### Season metadata (`NBADataManager._build_metadata`) -/

/-- One entry of `season_file_mapping` / `metadata_cache`: the dictionary the
code builds per discovered file (`path` is modelled by the file name, the data
directory prefix being constant). -/
structure FileInfo where
  filename : String
  path : String
  ftype : String
  playoff : Bool
  actualSeason : Option String
deriving DecidableEq, Repr

/-- `metadata_cache`: season label to role-key (`"{type}_{po|reg}"`) to file. -/
abbrev Metadata := List (String × List (String × FileInfo))

/-- `metadata_cache[season][key]` if present. -/
def alookup2 (md : Metadata) (season key' : String) : Option FileInfo :=
  match alookup md season with
  | none => none
  | some inner => alookup inner key'

/-- `metadata_cache.setdefault(season, {}); metadata_cache[season][key] = fi`. -/
def mdSet (md : Metadata) (season key' : String) (fi : FileInfo) : Metadata :=
  match alookup md season with
  | none => md ++ [(season, [(key', fi)])]
  | some inner => dinsert md season (dinsert inner key' fi)

/-- The third pass's guarded insert: `if key not in metadata_cache[season]`. -/
def mdSetIfAbsent (md : Metadata) (season key' : String) (fi : FileInfo) : Metadata :=
  match alookup md season with
  | none => md ++ [(season, [(key', fi)])]
  | some inner =>
    match alookup inner key' with
    | some _ => md
    | none => dinsert md season (dinsert inner key' fi)

theorem alookup_append_single_none {κ α : Type} [DecidableEq κ] {l : List (κ × α)} {k : κ}
    (k₀ : κ) (v₀ : α) (h : alookup l k = none) :
    alookup (l ++ [(k₀, v₀)]) k = if k₀ = k then some v₀ else none := by
  rw [alookup_append, h]
  rfl

theorem alookup_append_single_some {κ α : Type} [DecidableEq κ] {l : List (κ × α)} {k : κ}
    {v : α} (k₀ : κ) (v₀ : α) (h : alookup l k = some v) :
    alookup (l ++ [(k₀, v₀)]) k = some v := by
  rw [alookup_append, h]

theorem alookup2_mdSetIfAbsent_ne {md : Metadata} {s k : String} {fi : FileInfo}
    (s' k' : String) (hk : k ≠ k') :
    alookup2 (mdSetIfAbsent md s k fi) s' k' = alookup2 md s' k' := by
  cases hms : alookup md s with
  | none =>
    rw [show mdSetIfAbsent md s k fi = md ++ [(s, [(k, fi)])] from by simp [mdSetIfAbsent, hms]]
    unfold alookup2
    cases hms' : alookup md s' with
    | some inner' => rw [alookup_append_single_some s [(k, fi)] hms']
    | none =>
      rw [alookup_append_single_none s [(k, fi)] hms']
      by_cases hss : s = s'
      · rw [if_pos hss]
        show alookup [(k, fi)] k' = none
        show (if k = k' then some fi else alookup ([] : List (String × FileInfo)) k') = none
        rw [if_neg hk]
        rfl
      · rw [if_neg hss]
  | some inner =>
    cases hik : alookup inner k with
    | some fi' =>
      rw [show mdSetIfAbsent md s k fi = md from by simp [mdSetIfAbsent, hms, hik]]
    | none =>
      rw [show mdSetIfAbsent md s k fi = dinsert md s (dinsert inner k fi) from by
        simp [mdSetIfAbsent, hms, hik]]
      unfold alookup2
      by_cases hss : s = s'
      · subst hss
        rw [alookup_dinsert_self, hms]
        show alookup (dinsert inner k fi) k' = alookup inner k'
        rw [alookup_dinsert_ne _ _ _ _ hk]
      · rw [alookup_dinsert_ne _ _ _ _ hss]

/-- `filename.replace('.csv', '').split('_')`. -/
def fileParts (filename : String) : List String := pySplit (pyReplaceAll filename ".csv" "") '_'

/-- `parts[0]`, the data-type token. -/
def fileDataType (parts : List String) : String := parts.headD ""

/-- `parts[-1]`, the year token. -/
def fileYearToken (parts : List String) : String := parts.getLastD ""

/-- `'po' in parts`. -/
def fileIsPlayoff (parts : List String) : Bool := parts.any (· == "po")

/-- The discovered directory: `[f for f in os.listdir(...) if f.endswith('.csv')]`.
Each file carries its name and, for season detection, the `GAME_DATE` sample of
its first 1000 rows (`none` models a missing column or an unreadable file). -/
def csvFiles (files : List (String × Option (List Nat))) : List (String × Option (List Nat)) :=
  files.filter (fun f => pyEndsWith f.1 ".csv")

/-- First pass of `_build_metadata`: build `season_file_mapping` from content
inspection of shotdetail files. -/
def pass1Step (m : List (String × FileInfo)) (file : String × Option (List Nat)) :
    List (String × FileInfo) :=
  if 2 ≤ (fileParts file.1).length then
    if isDigitStr (fileYearToken (fileParts file.1))
        && (fileDataType (fileParts file.1) == "shotdetail") then
      match detectSeasonFromSample file.2 with
      | some s =>
        dinsert m
          (s ++ "_" ++ fileDataType (fileParts file.1) ++ "_"
            ++ (if fileIsPlayoff (fileParts file.1) then "po" else "reg"))
          ⟨file.1, file.1, fileDataType (fileParts file.1), fileIsPlayoff (fileParts file.1),
            some s⟩
      | none => m
    else m
  else m

/-- `season_file_mapping` after the first pass. -/
def seasonFileMapping (files : List (String × Option (List Nat))) : List (String × FileInfo) :=
  (csvFiles files).foldl pass1Step []

/-- Second pass: copy `season_file_mapping` into `metadata_cache` under the
detected season and the `"{type}_{po|reg}"` role key. -/
def pass2Step (md : Metadata) (e : String × FileInfo) : Metadata :=
  mdSet md (e.2.actualSeason.getD "")
    (e.2.ftype ++ "_" ++ (if e.2.playoff then "po" else "reg")) e.2

/-- `metadata_cache` after the two content-inspection passes. -/
def metadataAfterContentPass (files : List (String × Option (List Nat))) : Metadata :=
  (seasonFileMapping files).foldl pass2Step []

/-- Third pass: non-shotdetail files, season derived from the filename year
token as `f"{year - 1}-{yearToken[2:]}"`, inserted only when the role key is
absent ("Don't overwrite shotdetail mappings"). -/
def pass3Step (md : Metadata) (file : String × Option (List Nat)) : Metadata :=
  if 2 ≤ (fileParts file.1).length then
    if isDigitStr (fileYearToken (fileParts file.1))
        && !(fileDataType (fileParts file.1) == "shotdetail") then
      mdSetIfAbsent md
        (intStr ((strToNat (fileYearToken (fileParts file.1)) : Int) - 1) ++ "-"
          ++ pyDropStr (fileYearToken (fileParts file.1)) 2)
        (fileDataType (fileParts file.1) ++ "_"
          ++ (if fileIsPlayoff (fileParts file.1) then "po" else "reg"))
        ⟨file.1, file.1, fileDataType (fileParts file.1), fileIsPlayoff (fileParts file.1), none⟩
    else md
  else md

/-- `NBADataManager._build_metadata`: the content-inspection passes, then the
filename-derived pass for the other data types. -/
def buildMetadata (files : List (String × Option (List Nat))) : Metadata :=
  (csvFiles files).foldl pass3Step (metadataAfterContentPass files)

theorem string_data_ext {s t : String} (h : s.data = t.data) : s = t := by
  cases s
  cases t
  simp_all

theorem append_po_ne_reg (t : String) : t ++ "_" ++ "po" ≠ "shotdetail_reg" := by
  intro h
  have hd := congrArg String.data h
  rw [String.data_append, String.data_append] at hd
  have h1 : (t.data ++ ("_".data ++ "po".data)).getLast? = some 'o' := by
    rw [List.getLast?_append_of_ne_nil _ (by decide)]
    decide
  rw [← List.append_assoc, hd] at h1
  exact absurd h1 (by decide)

theorem append_reg_ne_po (t : String) : t ++ "_" ++ "reg" ≠ "shotdetail_po" := by
  intro h
  have hd := congrArg String.data h
  rw [String.data_append, String.data_append] at hd
  have h1 : (t.data ++ ("_".data ++ "reg".data)).getLast? = some 'g' := by
    rw [List.getLast?_append_of_ne_nil _ (by decide)]
    decide
  rw [← List.append_assoc, hd] at h1
  exact absurd h1 (by decide)

theorem append_reg_ne_reg (t : String) (ht : t ≠ "shotdetail") :
    t ++ "_" ++ "reg" ≠ "shotdetail_reg" := by
  intro h
  apply ht
  have hd := congrArg String.data h
  rw [String.data_append, String.data_append] at hd
  rw [show ("shotdetail_reg" : String).data = "shotdetail".data ++ ("_".data ++ "reg".data)
    from by decide] at hd
  rw [← List.append_assoc] at hd
  exact string_data_ext (List.append_cancel_right (List.append_cancel_right hd))

theorem append_po_ne_po (t : String) (ht : t ≠ "shotdetail") :
    t ++ "_" ++ "po" ≠ "shotdetail_po" := by
  intro h
  apply ht
  have hd := congrArg String.data h
  rw [String.data_append, String.data_append] at hd
  rw [show ("shotdetail_po" : String).data = "shotdetail".data ++ ("_".data ++ "po".data)
    from by decide] at hd
  rw [← List.append_assoc] at hd
  exact string_data_ext (List.append_cancel_right (List.append_cancel_right hd))

theorem pass3_preserves (k' : String)
    (hk : ∀ t : String, t ≠ "shotdetail" → ∀ b : Bool,
      t ++ "_" ++ (if b then "po" else "reg") ≠ k') :
    ∀ (l : List (String × Option (List Nat))) (md : Metadata) (season : String),
      alookup2 (l.foldl pass3Step md) season k' = alookup2 md season k' := by
  intro l
  induction l with
  | nil => intro md season; rfl
  | cons f t ih =>
    intro md season
    rw [List.foldl_cons, ih]
    unfold pass3Step
    split
    case isFalse => rfl
    case isTrue =>
      split
      case isFalse => rfl
      case isTrue hguard =>
        apply alookup2_mdSetIfAbsent_ne
        have hne : fileDataType (fileParts f.1) ≠ "shotdetail" := by
          have h2 := hguard
          rw [Bool.and_eq_true] at h2
          have h2b := h2.2
          simp only [Bool.not_eq_true'] at h2b
          exact beq_eq_false_iff_ne.1 h2b
        exact hk _ hne _

/-- C5: after `_build_metadata`, every shotdetail entry of the season index is
exactly the entry produced by the content-inspection passes: the later
filename-derived pass never overwrites (nor creates) a `(season, shotdetail,
playoff)` binding, for any set of discovered files and any season. -/
theorem C5_shotdetail_entries_preserved (files : List (String × Option (List Nat)))
    (season : String) :
    alookup2 (buildMetadata files) season "shotdetail_reg"
        = alookup2 (metadataAfterContentPass files) season "shotdetail_reg"
    ∧ alookup2 (buildMetadata files) season "shotdetail_po"
        = alookup2 (metadataAfterContentPass files) season "shotdetail_po" := by
  constructor
  · exact pass3_preserves "shotdetail_reg"
      (fun t ht b => by
        cases b
        · simpa using append_reg_ne_reg t ht
        · simpa using append_po_ne_reg t)
      (csvFiles files) (metadataAfterContentPass files) season
  · exact pass3_preserves "shotdetail_po"
      (fun t ht b => by
        cases b
        · simpa using append_reg_ne_po t
        · simpa using append_po_ne_po t ht)
      (csvFiles files) (metadataAfterContentPass files) season

/-! ### Player Shot Loader (`NBADataManager.load_player_shots`) -/

/-- A raw shotdetail row, with the columns the loader inspects. -/
structure RawRow where
  player : String
  gameId : String
  gameDateRaw : Nat
  period : Nat
deriving DecidableEq, Repr

/-- A standardized row: columns lower-cased and renamed, date parsed, and the
`season_type` tag added by the loader. -/
structure TRow where
  player : String
  gameId : String
  gameDate : Option Date
  period : Nat
  seasonType : String
deriving DecidableEq, Repr

instance {ε α : Type} [DecidableEq ε] [DecidableEq α] : DecidableEq (Except ε α) := fun a b =>
  match a, b with
  | .ok x, .ok y =>
    if h : x = y then isTrue (by rw [h]) else isFalse (fun hc => h (Except.ok.inj hc))
  | .error x, .error y =>
    if h : x = y then isTrue (by rw [h]) else isFalse (fun hc => h (Except.error.inj hc))
  | .ok _, .error _ => isFalse (fun hc => Except.noConfusion hc)
  | .error _, .ok _ => isFalse (fun hc => Except.noConfusion hc)

/-- `_get_file_path`: resolve a `(season, data_type, playoff)` role to a path
through the metadata cache. -/
def getFilePath (md : Metadata) (season dtype : String) (playoff : Bool) : Option String :=
  (alookup2 md season (dtype ++ "_" ++ (if playoff then "po" else "reg"))).map (·.path)

/-- `_load_player_from_file`: chunked scan keeping the rows whose
`PLAYER_NAME` equals the requested name exactly (the chunked scan concatenates
per-chunk filters, which equals one filter over the whole file); any read
exception is caught, logged, and turned into an empty frame. -/
def loadPlayerFromFile (content : Except String (List RawRow)) (playerName : String) :
    List RawRow :=
  match content with
  | .error _ => []
  | .ok rows => rows.filter (fun r => r.player == playerName)

/-- `_standardize_shot_data` on one tagged row: lower-case/rename columns and
parse `game_date` with `%Y%m%d` (the free-form fallback parse is not needed by
the claims below and is not modelled). -/
def standardizeRow (r : RawRow) (stype : String) : TRow :=
  ⟨r.player, r.gameId, parseYYYYMMDD r.gameDateRaw, r.period, stype⟩

/-- `load_player_shots`, written in the exception monad of the Python code:
regular-season rows tagged `"Regular"` first, then playoff rows tagged
`"Playoffs"`; an empty frame (`.ok []`) when nothing was found. `readF` maps a
resolved path to that file's rows or to its read error. -/
def loadPlayerShotsE (md : Metadata) (readF : String → Except String (List RawRow))
    (season playerName : String) (includePlayoffs : Bool) : Except String (List TRow) :=
  let regShots : List (RawRow × String) :=
    match getFilePath md season "shotdetail" false with
    | some p =>
      if 0 < (loadPlayerFromFile (readF p) playerName).length then
        (loadPlayerFromFile (readF p) playerName).map (fun r => (r, "Regular"))
      else []
    | none => []
  let poShots : List (RawRow × String) :=
    if includePlayoffs then
      match getFilePath md season "shotdetail" true with
      | some p =>
        if 0 < (loadPlayerFromFile (readF p) playerName).length then
          (loadPlayerFromFile (readF p) playerName).map (fun r => (r, "Playoffs"))
        else []
      | none => []
    else []
  if 0 < (regShots ++ poShots).length then
    Except.ok ((regShots ++ poShots).map (fun pr => standardizeRow pr.1 pr.2))
  else
    Except.ok []

theorem exists_ok_ite {c : Prop} [Decidable c] (a b : List TRow) :
    ∃ rows, (if c then Except.ok a else Except.ok b : Except String (List TRow))
      = Except.ok rows := by
  by_cases hc : c
  · exact ⟨a, by rw [if_pos hc]⟩
  · exact ⟨b, by rw [if_neg hc]⟩

/-- C2 as claimed: empty frame on a missing season file or on no exact
player-name match, and propagation of a hard read failure to the caller. -/
def claimC2 : Prop :=
  ∀ (md : Metadata) (readF : String → Except String (List RawRow))
    (season playerName : String) (includePlayoffs : Bool),
    (getFilePath md season "shotdetail" false = none →
      getFilePath md season "shotdetail" true = none →
      loadPlayerShotsE md readF season playerName includePlayoffs = Except.ok [])
    ∧ ((∀ p rows, readF p = Except.ok rows → ∀ r ∈ rows, r.player ≠ playerName) →
      loadPlayerShotsE md readF season playerName includePlayoffs = Except.ok [])
    ∧ (∀ p, getFilePath md season "shotdetail" false = some p →
        (∃ e, readF p = Except.error e) →
        ∃ e, loadPlayerShotsE md readF season playerName includePlayoffs = Except.error e)

/-- The directory of the C2 counterexample: one regular-season shotdetail file
whose sampled `GAME_DATE` is 2021-11-05, so it indexes under season
`"2021-22"`. -/
def ceFiles : List (String × Option (List Nat)) := [("shotdetail_2022.csv", some [20211105])]

/-- Metadata built from `ceFiles`. -/
def ceMd : Metadata := buildMetadata ceFiles

/-- A reader whose every file read raises. -/
def ceRead : String → Except String (List RawRow) := fun _ => Except.error "disk error"

/-- C2 fails on the code: with the season file present but unreadable,
`_load_player_from_file` catches the exception and `load_player_shots`
returns an empty frame instead of propagating the error. -/
theorem C2_counterexample : ¬ claimC2 := by
  intro h
  have hpath : getFilePath ceMd "2021-22" "shotdetail" false = some "shotdetail_2022.csv" := by
    decide
  obtain ⟨e, he⟩ :=
    (h ceMd ceRead "2021-22" "X" true).2.2 "shotdetail_2022.csv" hpath ⟨"disk error", rfl⟩
  rw [show loadPlayerShotsE ceMd ceRead "2021-22" "X" true = Except.ok [] from by decide] at he
  cases he

/-- C2 (amended): the empty-frame contract for a missing season file and for
no matching rows holds as claimed, but a hard read failure does not propagate:
`_load_player_from_file` catches every exception and contributes an empty
frame, so `load_player_shots` never raises, and returns an empty frame when
every resolved file fails to read. -/
theorem C2_amended_load_semantics (md : Metadata)
    (readF : String → Except String (List RawRow)) (season playerName : String)
    (includePlayoffs : Bool) :
    (getFilePath md season "shotdetail" false = none →
      getFilePath md season "shotdetail" true = none →
      loadPlayerShotsE md readF season playerName includePlayoffs = Except.ok [])
    ∧ ((∀ p rows, readF p = Except.ok rows → ∀ r ∈ rows, r.player ≠ playerName) →
      loadPlayerShotsE md readF season playerName includePlayoffs = Except.ok [])
    ∧ (∃ rows, loadPlayerShotsE md readF season playerName includePlayoffs = Except.ok rows)
    ∧ ((∀ p rows, readF p ≠ Except.ok rows) →
      loadPlayerShotsE md readF season playerName includePlayoffs = Except.ok []) := by
  refine ⟨?_, ?_, ?_, ?_⟩
  · intro h1 h2
    simp only [loadPlayerShotsE, h1, h2]
    cases includePlayoffs <;> simp
  · intro hno
    have hlf : ∀ p, loadPlayerFromFile (readF p) playerName = [] := by
      intro p
      unfold loadPlayerFromFile
      cases hrf : readF p with
      | error e => rfl
      | ok rows =>
        rw [List.filter_eq_nil_iff]
        intro r hr
        simp only [Bool.not_eq_true, beq_eq_false_iff_ne]
        exact hno p rows hrf r hr
    simp only [loadPlayerShotsE]
    cases hr : getFilePath md season "shotdetail" false <;>
      cases hp : getFilePath md season "shotdetail" true <;>
      cases includePlayoffs <;> simp [hlf]
  · simp only [loadPlayerShotsE]
    exact exists_ok_ite _ _
  · intro hno
    have hlf : ∀ p, loadPlayerFromFile (readF p) playerName = [] := by
      intro p
      unfold loadPlayerFromFile
      cases hrf : readF p with
      | error e => rfl
      | ok rows => exact absurd hrf (hno p rows)
    simp only [loadPlayerShotsE]
    cases hr : getFilePath md season "shotdetail" false <;>
      cases hp : getFilePath md season "shotdetail" true <;>
      cases includePlayoffs <;> simp [hlf]

/-- Witness for C2 (amended): the empty metadata resolves no file, the reader
always fails, and the loader still returns the empty frame. -/
theorem C2_amended_witness :
    getFilePath ([] : Metadata) "2020-21" "shotdetail" false = none
    ∧ ((getFilePath ([] : Metadata) "2020-21" "shotdetail" false = none →
          getFilePath ([] : Metadata) "2020-21" "shotdetail" true = none →
          loadPlayerShotsE [] (fun _ => Except.error "e") "2020-21" "P" true = Except.ok [])
      ∧ ((∀ p rows, (fun _ => Except.error "e" : String → Except String (List RawRow)) p
            = Except.ok rows → ∀ r ∈ rows, r.player ≠ "P") →
        loadPlayerShotsE [] (fun _ => Except.error "e") "2020-21" "P" true = Except.ok [])
      ∧ (∃ rows, loadPlayerShotsE [] (fun _ => Except.error "e") "2020-21" "P" true
            = Except.ok rows)
      ∧ ((∀ p rows, (fun _ => Except.error "e" : String → Except String (List RawRow)) p
            ≠ Except.ok rows) →
        loadPlayerShotsE [] (fun _ => Except.error "e") "2020-21" "P" true = Except.ok [])) :=
  ⟨by decide, C2_amended_load_semantics [] (fun _ => Except.error "e") "2020-21" "P" true⟩

/-! ### Filter engine data model (`NBAFilterEngine`)

A pandas frame is modelled as a column-presence record plus a list of rows.
A row carries every column the engine reads; when the corresponding flag in
`Cols` is `false` the field's value is irrelevant (the code never reads an
absent column). `idx` is the row's pandas index label. -/

/-- Which columns the frame has (after `_standardize_columns` renaming). -/
structure Cols where
  game_id : Bool
  game_date : Bool
  period : Bool
  minutes_remaining : Bool
  season_type : Bool
  home_team : Bool
  visiting_team : Bool
  matchup : Bool
  game_num : Bool
  rest_days : Bool
  estimated_margin : Bool
  estimated_minutes : Bool
  estimated_streak : Bool
deriving DecidableEq, Repr

/-- One shot row as the filter engine sees it. -/
structure Row where
  idx : Nat
  game_id : String
  game_date : Date
  period : Nat
  minutes_remaining : Nat
  season_type : String
  home_team : String
  visiting_team : String
  matchup : String
  game_num : Nat
  rest_days : Int
  estimated_margin : ℚ
  estimated_minutes : ℚ
  estimated_streak : Int
deriving DecidableEq, Repr

/-- A pandas DataFrame for the engine. -/
structure Frame where
  cols : Cols
  rows : List Row
deriving DecidableEq, Repr

/-- The numpy global PRNG, abstracted: `seed` models `np.random.seed`,
`random` one `np.random.random()` draw, `normal mean std` one
`np.random.normal(mean, std)` draw, `choiceStr`/`choiceNat` one
`np.random.choice(pool, size, replace=False)` call, and `weightedInt` one
weighted `np.random.choice(options, p=weights)` draw. -/
structure Rng (σ : Type) where
  seed : Nat → σ
  random : σ → ℚ × σ
  normal : ℚ → ℚ → σ → ℚ × σ
  choiceStr : σ → List String → Nat → List String × σ
  choiceNat : σ → List Nat → Nat → List Nat × σ
  weightedInt : σ → List (Int × ℚ) → Int × σ

/-- What `np.random.choice(pool, size, replace=False)` guarantees: the result
has the requested size and draws from the pool. -/
def RngValid {σ : Type} (rng : Rng σ) : Prop :=
  (∀ s l k, k ≤ l.length →
    (rng.choiceStr s l k).1.length = k ∧ ∀ x ∈ (rng.choiceStr s l k).1, x ∈ l)
  ∧ (∀ s l k, k ≤ l.length →
    (rng.choiceNat s l k).1.length = k ∧ ∀ x ∈ (rng.choiceNat s l k).1, x ∈ l)

/-- A concrete valid generator: `choice` takes the first `k` pool elements. -/
def trivRng : Rng Unit :=
  ⟨fun _ => (), fun _ => (1, ()), fun _ _ _ => (0, ()),
   fun _ l k => (l.take k, ()), fun _ l k => (l.take k, ()), fun _ _ => (0, ())⟩

theorem trivRng_valid : RngValid trivRng := by
  constructor <;> intro s l k hk <;> refine ⟨?_, ?_⟩
  · simp only [trivRng, List.length_take]
    omega
  · intro x hx
    exact List.mem_of_mem_take hx
  · simp only [trivRng, List.length_take]
    omega
  · intro x hx
    exact List.mem_of_mem_take hx

/-- First-occurrence deduplication (pandas `Series.unique`). -/
def pyUniqueAux {α : Type} [DecidableEq α] : List α → List α → List α
  | _, [] => []
  | seen, x :: t => if x ∈ seen then pyUniqueAux seen t else x :: pyUniqueAux (x :: seen) t

/-- pandas `Series.unique`: distinct values in first-occurrence order. -/
def pyUnique {α : Type} [DecidableEq α] (l : List α) : List α := pyUniqueAux [] l

/-- The fixed 30-team full-name to abbreviation table of
`_get_team_name_variations`. -/
def teamAbbreviations : List (String × String) :=
  [("Atlanta Hawks", "ATL"), ("Boston Celtics", "BOS"), ("Brooklyn Nets", "BKN"),
   ("Charlotte Hornets", "CHA"), ("Chicago Bulls", "CHI"), ("Cleveland Cavaliers", "CLE"),
   ("Dallas Mavericks", "DAL"), ("Denver Nuggets", "DEN"), ("Detroit Pistons", "DET"),
   ("Golden State Warriors", "GSW"), ("Houston Rockets", "HOU"), ("Indiana Pacers", "IND"),
   ("LA Clippers", "LAC"), ("Los Angeles Lakers", "LAL"), ("Memphis Grizzlies", "MEM"),
   ("Miami Heat", "MIA"), ("Milwaukee Bucks", "MIL"), ("Minnesota Timberwolves", "MIN"),
   ("New Orleans Pelicans", "NOP"), ("New York Knicks", "NYK"),
   ("Oklahoma City Thunder", "OKC"), ("Orlando Magic", "ORL"),
   ("Philadelphia 76ers", "PHI"), ("Phoenix Suns", "PHX"),
   ("Portland Trail Blazers", "POR"), ("Sacramento Kings", "SAC"),
   ("San Antonio Spurs", "SAS"), ("Toronto Raptors", "TOR"), ("Utah Jazz", "UTA"),
   ("Washington Wizards", "WAS")]

/-- `_get_team_name_variations`: the name, its abbreviation when tabled, the
upper/lower/space-stripped forms; deduplicated keeping first-seen order. -/
def getTeamNameVariations (team : String) : List String :=
  pyUnique ([team]
    ++ (match alookup teamAbbreviations team with
        | some a => [a]
        | none => [])
    ++ [upperStr team, lowerStr team, pyReplaceAll team " " ""])

/-- The `team_abbr` computed by the matchup branch of
`_filter_home_away_fixed`: `variations[1]` when it exists, else `team[:3]`. -/
def homeAwayAbbr (team : String) : String :=
  if 1 < (getTeamNameVariations team).length then (getTeamNameVariations team).getD 1 ""
  else pyTake team 3

/-! ### The nine filter predicates -/

/-- Method 3 of `_filter_home_away_fixed`: seeded pseudo-random 50/50 split of
distinct game ids (or of row index labels without a `game_id` column). -/
def homeAwayFallback {σ : Type} (rng : Rng σ) (f : Frame) (v : String) : Frame :=
  if f.cols.game_id then
    if v == "Home" then
      {f with rows := f.rows.filter (fun r =>
        ((rng.choiceStr (rng.seed 42) (pyUnique (f.rows.map (·.game_id)))
          ((pyUnique (f.rows.map (·.game_id))).length / 2)).1).contains r.game_id)}
    else
      {f with rows := f.rows.filter (fun r =>
        !(((rng.choiceStr (rng.seed 42) (pyUnique (f.rows.map (·.game_id)))
          ((pyUnique (f.rows.map (·.game_id))).length / 2)).1).contains r.game_id))}
  else
    if v == "Home" then
      {f with rows := f.rows.filter (fun r =>
        ((rng.choiceNat (rng.seed 42) (f.rows.map (·.idx)) (f.rows.length / 2)).1).contains r.idx)}
    else
      {f with rows := f.rows.filter (fun r =>
        !(((rng.choiceNat (rng.seed 42) (f.rows.map (·.idx)) (f.rows.length / 2)).1).contains
          r.idx))}

/-- `_filter_home_away_fixed`: explicit home/visiting-team columns first, then
the matchup-string parse, then the seeded random fallback; a `filter_value`
other than Home/Away falls through to the fallback in every branch. -/
def filterHomeAway {σ : Type} (rng : Rng σ) (f : Frame) (v team : String) : Frame :=
  if f.cols.home_team && f.cols.visiting_team then
    if v == "Home" then
      {f with rows := f.rows.filter (fun r => (getTeamNameVariations team).contains r.home_team)}
    else if v == "Away" then
      {f with rows := f.rows.filter (fun r =>
        (getTeamNameVariations team).contains r.visiting_team)}
    else homeAwayFallback rng f v
  else if f.cols.matchup then
    if v == "Home" then
      {f with rows := f.rows.filter (fun r =>
        !(containsSub r.matchup "@")
        || pyStartsWith r.matchup (homeAwayAbbr team)
        || containsSub r.matchup (homeAwayAbbr team ++ " vs"))}
    else if v == "Away" then
      {f with rows := f.rows.filter (fun r =>
        containsSub r.matchup "@"
        || containsSub r.matchup ("@ " ++ homeAwayAbbr team)
        || containsSub r.matchup ("at " ++ homeAwayAbbr team))}
    else homeAwayFallback rng f v
  else homeAwayFallback rng f v

/-- `_filter_quarter`. -/
def filterQuarter (f : Frame) (v : String) : Frame :=
  if !f.cols.period then f
  else
    match alookup [("1st", 1), ("2nd", 2), ("3rd", 3), ("4th", 4)] v with
    | some q => {f with rows := f.rows.filter (fun r => r.period == q)}
    | none =>
      if v == "OT" then {f with rows := f.rows.filter (fun r => decide (5 ≤ r.period))} else f

/-- The game-number half of `_filter_season_phase`. -/
def seasonPhaseGameNum (f : Frame) (v : String) : Frame :=
  if !f.cols.game_num then f
  else if containsSub v "Early" then
    {f with rows := f.rows.filter (fun r => decide (r.game_num ≤ 25))}
  else if containsSub v "Mid" then
    {f with rows := f.rows.filter (fun r => decide (25 < r.game_num) && decide (r.game_num ≤ 60))}
  else if containsSub v "Late" then
    {f with rows := f.rows.filter (fun r => decide (60 < r.game_num))}
  else f

/-- `_filter_season_phase`: season-type narrowing (when the column exists)
followed by game-number narrowing. -/
def filterSeasonPhase (f : Frame) (v : String) : Frame :=
  if f.cols.season_type then
    if v == "Playoffs Only" then
      {f with rows := f.rows.filter (fun r => containsCI r.season_type "Playoff")}
    else if v == "Regular Season Only" then
      {f with rows := f.rows.filter (fun r => containsCI r.season_type "Regular")}
    else if containsSub v "Playoffs" then
      {f with rows := f.rows.filter (fun r => containsCI r.season_type "Playoff")}
    else
      seasonPhaseGameNum
        {f with rows := f.rows.filter (fun r => containsCI r.season_type "Regular")} v
  else seasonPhaseGameNum f v

/-- `_filter_score_margin`. -/
def filterScoreMargin (f : Frame) (v : String) : Frame :=
  if !f.cols.estimated_margin then f
  else if containsSub v "Close" || containsSub v "Clutch" then
    {f with rows := f.rows.filter (fun r => decide (|r.estimated_margin| ≤ 10))}
  else if containsSub v "Blowout" then
    {f with rows := f.rows.filter (fun r => decide (10 < |r.estimated_margin|))}
  else if containsSub v "Competitive" then
    {f with rows := f.rows.filter (fun r => decide (|r.estimated_margin| ≤ 5))}
  else f

/-- `_filter_game_flow`. -/
def filterGameFlow (f : Frame) (v : String) : Frame :=
  if !f.cols.estimated_margin then f
  else if v == "Leading" then
    {f with rows := f.rows.filter (fun r => decide (2 < r.estimated_margin))}
  else if v == "Trailing" then
    {f with rows := f.rows.filter (fun r => decide (r.estimated_margin < -2))}
  else if v == "Tied" then
    {f with rows := f.rows.filter (fun r => decide (|r.estimated_margin| ≤ 2))}
  else f

/-- `_filter_rest_days`. -/
def filterRestDays (f : Frame) (v : String) : Frame :=
  if !f.cols.rest_days then f
  else if v == "Back-to-Back (0 days)" || v == "Back-to-Back" then
    {f with rows := f.rows.filter (fun r => r.rest_days == 0)}
  else if v == "1 Day Rest" then
    {f with rows := f.rows.filter (fun r => r.rest_days == 1)}
  else if v == "2 Days Rest" then
    {f with rows := f.rows.filter (fun r => r.rest_days == 2)}
  else if v == "3+ Days Rest" then
    {f with rows := f.rows.filter (fun r => decide (3 ≤ r.rest_days))}
  else if v == "1+ Days Rest" then
    {f with rows := f.rows.filter (fun r => decide (1 ≤ r.rest_days))}
  else if v == "2+ Days Rest" then
    {f with rows := f.rows.filter (fun r => decide (2 ≤ r.rest_days))}
  else f

/-- `_filter_streak`. -/
def filterStreak (f : Frame) (v : String) : Frame :=
  if !f.cols.estimated_streak then f
  else if v == "Win Streak (Any)" then
    {f with rows := f.rows.filter (fun r => decide (0 < r.estimated_streak))}
  else if v == "2+ Game Win Streak" then
    {f with rows := f.rows.filter (fun r => decide (2 ≤ r.estimated_streak))}
  else if v == "3+ Game Win Streak" then
    {f with rows := f.rows.filter (fun r => decide (3 ≤ r.estimated_streak))}
  else if v == "5+ Game Win Streak" then
    {f with rows := f.rows.filter (fun r => decide (5 ≤ r.estimated_streak))}
  else if v == "Loss Streak (Any)" then
    {f with rows := f.rows.filter (fun r => decide (r.estimated_streak < 0))}
  else if v == "2+ Game Loss Streak" then
    {f with rows := f.rows.filter (fun r => decide (r.estimated_streak ≤ -2))}
  else if v == "3+ Game Loss Streak" then
    {f with rows := f.rows.filter (fun r => decide (r.estimated_streak ≤ -3))}
  else if v == "5+ Game Loss Streak" then
    {f with rows := f.rows.filter (fun r => decide (r.estimated_streak ≤ -5))}
  else if v == "No Streak" then
    {f with rows := f.rows.filter (fun r => r.estimated_streak == 0)}
  else if v == "Win Streak" then
    {f with rows := f.rows.filter (fun r => decide (0 < r.estimated_streak))}
  else if v == "Loss Streak" then
    {f with rows := f.rows.filter (fun r => decide (r.estimated_streak < 0))}
  else if v == "Neutral" then
    {f with rows := f.rows.filter (fun r => r.estimated_streak == 0)}
  else f

/-- `_filter_back_to_back`. -/
def filterBackToBack (f : Frame) (v : String) : Frame :=
  if !f.cols.rest_days then f
  else if v == "Yes" then
    {f with rows := f.rows.filter (fun r => r.rest_days == 0)}
  else if v == "No" then
    {f with rows := f.rows.filter (fun r => decide (0 < r.rest_days))}
  else f

/-- `_filter_minutes_played`. -/
def filterMinutesPlayed (f : Frame) (v : String) : Frame :=
  if !f.cols.estimated_minutes then f
  else if containsSub v "Fresh" then
    {f with rows := f.rows.filter (fun r => decide (r.estimated_minutes ≤ 15))}
  else if containsSub v "Normal" then
    {f with rows := f.rows.filter (fun r =>
      decide (15 < r.estimated_minutes) && decide (r.estimated_minutes ≤ 30))}
  else if containsSub v "Heavy" then
    {f with rows := f.rows.filter (fun r =>
      decide (30 < r.estimated_minutes) && decide (r.estimated_minutes ≤ 40))}
  else if containsSub v "Exhausted" then
    {f with rows := f.rows.filter (fun r => decide (40 < r.estimated_minutes))}
  else if containsSub v "0-20" then
    {f with rows := f.rows.filter (fun r => decide (r.estimated_minutes ≤ 20))}
  else if containsSub v "20-35" then
    {f with rows := f.rows.filter (fun r =>
      decide (20 < r.estimated_minutes) && decide (r.estimated_minutes ≤ 35))}
  else if containsSub v "35+" then
    {f with rows := f.rows.filter (fun r => decide (35 < r.estimated_minutes))}
  else f

/-- `_apply_single_filter`: dispatch on the dimension name; an unknown
dimension returns the frame unchanged. -/
def applySingleFilter {σ : Type} (rng : Rng σ) (data : Frame)
    (filterName filterValue team : String) : Frame :=
  if filterName == "home_away" then filterHomeAway rng data filterValue team
  else if filterName == "quarter" then filterQuarter data filterValue
  else if filterName == "season_phase" then filterSeasonPhase data filterValue
  else if filterName == "score_margin" then filterScoreMargin data filterValue
  else if filterName == "game_flow" then filterGameFlow data filterValue
  else if filterName == "rest_days" then filterRestDays data filterValue
  else if filterName == "streak" then filterStreak data filterValue
  else if filterName == "back_to_back" then filterBackToBack data filterValue
  else if filterName == "minutes_played" then filterMinutesPlayed data filterValue
  else data

/-- The filter loop of `apply_all_filters`: skip `"All"`, narrow otherwise,
and stop early when no rows remain. -/
def applyFiltersGo {σ : Type} (rng : Rng σ) (team : String) :
    Frame → List (String × String) → Frame
  | data, [] => data
  | data, (n, v) :: rest =>
    if v == "All" then applyFiltersGo rng team data rest
    else
      if (applySingleFilter rng data n v team).rows.length == 0 then
        applySingleFilter rng data n v team
      else applyFiltersGo rng team (applySingleFilter rng data n v team) rest

/-- `apply_all_filters(player_name, team, filters)`; `filters` is the spec's
dimension-to-option mapping in its iteration order. -/
def applyAllFilters {σ : Type} (rng : Rng σ) (f : Frame) (playerName team : String)
    (filters : List (String × String)) : Frame :=
  if f.rows.isEmpty then f else applyFiltersGo rng team f filters

/-! ### Feature derivation (`_prepare_enhanced_data` and the `_add_*` helpers) -/

/-- `drop_duplicates('game_id')`: first row of each distinct game id, keeping
frame order. -/
def dedupByGameIdAux : List String → List Row → List Row
  | _, [] => []
  | seen, r :: t =>
    if r.game_id ∈ seen then dedupByGameIdAux seen t
    else r :: dedupByGameIdAux (r.game_id :: seen) t

/-- `drop_duplicates('game_id')` on the engine's frame. -/
def dedupByGameId (rows : List Row) : List Row := dedupByGameIdAux [] rows

/-- The `[['game_id', 'game_date']]` projection of the deduplicated frame. -/
def gamePairs (rows : List Row) : List (String × Date) :=
  (dedupByGameId rows).map (fun r => (r.game_id, r.game_date))

/-- Pair each element with its position, `enumFrom n l = [(n, l₀), ...]`. -/
def enumFrom {α : Type} : Nat → List α → List (Nat × α)
  | _, [] => []
  | n, x :: t => (n, x) :: enumFrom (n + 1) t

/-- The key ordering the model's arrangement of `sort_values('game_date')`:
date first, then original position. pandas' default quicksort kind is not
stable, so the program fixes no particular order among equal dates; this key
picks the first-appearance arrangement as one concrete date-sorted outcome.
Theorems about the tie order must therefore quantify over every date-sorted
arrangement rather than rely on this choice. -/
def pairLe (a b : Nat × (String × Date)) : Prop :=
  dateVal a.2.2 < dateVal b.2.2 ∨ (dateVal a.2.2 = dateVal b.2.2 ∧ a.1 ≤ b.1)

instance : DecidableRel pairLe := fun a b => by unfold pairLe; infer_instance

/-- `sort_values('game_date')` on a `(game_id, game_date)` table: one
concrete date-ascending arrangement (first-appearance tie order). The default
quicksort kind guarantees only date-sorted-ness and the multiset of pairs,
not any tie order, so only those two facts of this model reflect the
program. -/
def sortPairsByDate (l : List (String × Date)) : List (String × Date) :=
  (List.insertionSort pairLe (enumFrom 0 l)).map (·.2)

/-- The deduplicated games sorted by date (`unique_games` in the code). -/
def uniqueGamesSorted (rows : List Row) : List (String × Date) :=
  sortPairsByDate (gamePairs rows)

/-- `dict(zip(game_id, range(1, len + 1)))` over the sorted unique games. -/
def gameNumMap (rows : List Row) : List (String × Nat) :=
  (enumFrom 0 (uniqueGamesSorted rows)).map (fun p => (p.2.1, p.1 + 1))

/-- The game number the engine assigns to a game id. -/
def numOf (rows : List Row) (g : String) : Nat := (alookup (gameNumMap rows) g).getD 0

/-- Python `sorted` on distinct strings (`sorted(unique_games)`). -/
def pyStrLe (a b : String) : Prop := pyStrLt b a = false

instance : DecidableRel pyStrLe := fun a b => by unfold pyStrLe; infer_instance

/-- Python `sorted` on distinct naturals. -/
def natLeP (a b : Nat) : Prop := a ≤ b

instance : DecidableRel natLeP := fun a b => by unfold natLeP; infer_instance

/-- Date keys sorted ascending (`sorted(... .unique())`). -/
def dateLeP (a b : Date) : Prop := dateVal a ≤ dateVal b

instance : DecidableRel dateLeP := fun a b => by unfold dateLeP; infer_instance

/-- The date-only fallback numbering of `_add_game_numbers` (no `game_id`
column): distinct dates sorted ascending, numbered from 1. -/
def dateNumMap (rows : List Row) : List (Nat × Nat) :=
  (enumFrom 0 (List.insertionSort natLeP (pyUnique (rows.map (fun r => dateVal r.game_date))))).map
    (fun p => (p.2, p.1 + 1))

/-- `_add_game_numbers`. -/
def addGameNumbers (f : Frame) : Frame :=
  if !f.cols.game_date then f
  else if f.cols.game_id then
    {f with cols := {f.cols with game_num := true},
            rows := f.rows.map (fun r =>
              {r with game_num := (alookup (gameNumMap f.rows) r.game_id).getD 0})}
  else
    {f with cols := {f.cols with game_num := true},
            rows := f.rows.map (fun r =>
              {r with game_num := (alookup (dateNumMap f.rows) (dateVal r.game_date)).getD 0})}

/-- The shift/subtract/fillna/clip pipeline of `_add_rest_days` walked over
the sorted unique games: the first game's missing previous date becomes 0 via
`fillna(0)`, and each later game gets `clip(lower=0)` of
`(date - prev).days - 1`. -/
def restWalk : Option Date → List (String × Date) → List (String × Int)
  | _, [] => []
  | prev, (g, d) :: t =>
    (g, max 0 ((prev.map (fun p => (dayNumber d : Int) - dayNumber p - 1)).getD 0)) ::
      restWalk (some d) t

/-- The per-game rest-days table of `_add_rest_days`. -/
def restMap (rows : List Row) : List (String × Int) := restWalk none (uniqueGamesSorted rows)

/-- The date-only fallback of `_add_rest_days`. -/
def dateRestWalk : Option Date → List Date → List (Date × Int)
  | _, [] => []
  | prev, d :: t =>
    (d, max 0 ((prev.map (fun p => (dayNumber d : Int) - dayNumber p - 1)).getD 0)) ::
      dateRestWalk (some d) t

/-- The fallback rest-days table keyed by date. -/
def dateRestMap (rows : List Row) : List (Date × Int) :=
  dateRestWalk none (List.insertionSort dateLeP (pyUnique (rows.map (fun r => r.game_date))))

/-- `_add_rest_days`. -/
def addRestDays (f : Frame) : Frame :=
  if !f.cols.game_date then f
  else if f.cols.game_id then
    {f with cols := {f.cols with rest_days := true},
            rows := f.rows.map (fun r =>
              {r with rest_days := (alookup (restMap f.rows) r.game_id).getD 0})}
  else
    {f with cols := {f.cols with rest_days := true},
            rows := f.rows.map (fun r =>
              {r with rest_days := (alookup (dateRestMap f.rows) r.game_date).getD 0})}

/-- One `np.random.normal(0, 8)` draw per unique game, threading the
generator state. -/
def drawMarginsK {σ κ : Type} (rng : Rng σ) : σ → List κ → List (κ × ℚ) × σ
  | s, [] => ([], s)
  | s, g :: t =>
    ((g, (rng.normal 0 8 s).1) :: (drawMarginsK rng (rng.normal 0 8 s).2 t).1,
     (drawMarginsK rng (rng.normal 0 8 s).2 t).2)

/-- `_add_score_margin_estimation`: margins default to 0.0; with a `period`
column the generator is re-seeded with 42 and one base margin is drawn per
distinct game id (per row position when `game_id` is absent, modelling
`.get('game_id', range(len))`), scaled by 0.7 in periods 4 and later. -/
def addScoreMargin {σ : Type} (rng : Rng σ) (s : σ) (f : Frame) : Frame × σ :=
  if f.cols.period then
    if f.cols.game_id then
      ({f with cols := {f.cols with estimated_margin := true},
               rows := f.rows.map (fun r =>
                 {r with estimated_margin :=
                   ((alookup (drawMarginsK rng (rng.seed 42)
                       (pyUnique (f.rows.map (·.game_id)))).1 r.game_id).getD 0)
                     * (if r.period ≤ 3 then 1 else 7 / 10)})},
       (drawMarginsK rng (rng.seed 42) (pyUnique (f.rows.map (·.game_id)))).2)
    else
      ({f with cols := {f.cols with estimated_margin := true},
               rows := (enumFrom 0 f.rows).map (fun p =>
                 {p.2 with estimated_margin :=
                   ((alookup (drawMarginsK rng (rng.seed 42)
                       (pyUnique ((enumFrom 0 f.rows).map (·.1)))).1 p.1).getD 0)
                     * (if p.2.period ≤ 3 then 1 else 7 / 10)})},
       (drawMarginsK rng (rng.seed 42) (pyUnique ((enumFrom 0 f.rows).map (·.1)))).2)
  else
    ({f with cols := {f.cols with estimated_margin := true},
             rows := f.rows.map (fun r => {r with estimated_margin := 0})}, s)

/-- `Series.clip(lo, hi)` on one value. -/
def qclip (x lo hi : ℚ) : ℚ := max lo (min hi x)

/-- The ultimate fallback of `_add_minutes_played_estimation`: one
`np.random.normal(0, 5)` draw per row, `25 + draw` clipped to `[10, 45]`. -/
def drawMinutesRows {σ : Type} (rng : Rng σ) : σ → List Row → List Row × σ
  | s, [] => ([], s)
  | s, r :: t =>
    ({r with estimated_minutes := qclip (25 + (rng.normal 0 5 s).1) 10 45} ::
      (drawMinutesRows rng (rng.normal 0 5 s).2 t).1,
     (drawMinutesRows rng (rng.normal 0 5 s).2 t).2)

/-- `_add_minutes_played_estimation`: elapsed-time estimate scaled by 0.75 and
clipped to `[0, 48]` when both `period` and `minutes_remaining` exist; `period
* 9` clipped to `[0, 45]` with only `period`; else the seeded random fallback. -/
def addMinutesPlayed {σ : Type} (rng : Rng σ) (s : σ) (f : Frame) : Frame × σ :=
  if f.cols.period && f.cols.minutes_remaining then
    ({f with cols := {f.cols with estimated_minutes := true},
             rows := f.rows.map (fun r =>
               {r with estimated_minutes := qclip
                                  ((((r.period : ℚ) - 1) * 12
                                    + (12 - (r.minutes_remaining : ℚ))) * (3 / 4)) 0 48})}, s)
  else if f.cols.period then
    ({f with cols := {f.cols with estimated_minutes := true},
             rows := f.rows.map (fun r =>
               {r with estimated_minutes := qclip ((r.period : ℚ) * 9) 0 45})}, s)
  else
    ({f with cols := {f.cols with estimated_minutes := true},
             rows := (drawMinutesRows rng (rng.seed 42) f.rows).1},
     (drawMinutesRows rng (rng.seed 42) f.rows).2)

/-- `max(-8, min(8, streak))`. -/
def clampStreak (c : Int) : Int := max (-8) (min 8 c)

/-- The seeded pseudo-random streak walk of
`_add_win_loss_streak_estimation`, over games in Python `sorted` order:
with one draw, probability 0.55 extends a non-zero streak; otherwise a second
draw picks a 60/40 win/loss restart or extension; clamped to `[-8, 8]`. -/
def streakWalk {σ : Type} (rng : Rng σ) : σ → Int → List String → List (String × Int) × σ
  | s, _, [] => ([], s)
  | s, cur, g :: t =>
    if decide ((rng.random s).1 < 55 / 100) && !(cur == 0) then
      ((g, clampStreak (if 0 < cur then cur + 1 else cur - 1)) ::
        (streakWalk rng (rng.random s).2 (clampStreak (if 0 < cur then cur + 1 else cur - 1)) t).1,
       (streakWalk rng (rng.random s).2 (clampStreak (if 0 < cur then cur + 1 else cur - 1)) t).2)
    else
      ((g, clampStreak (if (rng.random (rng.random s).2).1 < 6 / 10 then
            (if cur ≤ 0 then 1 else cur + 1) else (if 0 ≤ cur then -1 else cur - 1))) ::
        (streakWalk rng (rng.random (rng.random s).2).2
          (clampStreak (if (rng.random (rng.random s).2).1 < 6 / 10 then
            (if cur ≤ 0 then 1 else cur + 1) else (if 0 ≤ cur then -1 else cur - 1))) t).1,
       (streakWalk rng (rng.random (rng.random s).2).2
          (clampStreak (if (rng.random (rng.random s).2).1 < 6 / 10 then
            (if cur ≤ 0 then 1 else cur + 1) else (if 0 ≤ cur then -1 else cur - 1))) t).2)

/-- The no-`game_id` fallback of the streak estimation: one weighted draw from
`[-3..3]` per row. -/
def drawStreakRows {σ : Type} (rng : Rng σ) : σ → List Row → List Row × σ
  | s, [] => ([], s)
  | s, r :: t =>
    ({r with estimated_streak :=
        (rng.weightedInt s [(-3, 1 / 10), (-2, 3 / 20), (-1, 1 / 5), (0, 3 / 10), (1, 1 / 5),
          (2, 3 / 20), (3, 1 / 10)]).1} ::
      (drawStreakRows rng
        (rng.weightedInt s [(-3, 1 / 10), (-2, 3 / 20), (-1, 1 / 5), (0, 3 / 10), (1, 1 / 5),
          (2, 3 / 20), (3, 1 / 10)]).2 t).1,
     (drawStreakRows rng
        (rng.weightedInt s [(-3, 1 / 10), (-2, 3 / 20), (-1, 1 / 5), (0, 3 / 10), (1, 1 / 5),
          (2, 3 / 20), (3, 1 / 10)]).2 t).2)

/-- `_add_win_loss_streak_estimation`: seed 42, then the walk over
lexically-sorted distinct game ids mapped back to rows (`fillna(0)`), or the
weighted per-row fallback without a `game_id` column. -/
def addStreak {σ : Type} (rng : Rng σ) (s : σ) (f : Frame) : Frame × σ :=
  if f.cols.game_id then
    ({f with cols := {f.cols with estimated_streak := true},
             rows := f.rows.map (fun r =>
               {r with estimated_streak :=
                 (alookup (streakWalk rng (rng.seed 42) 0
                     (List.insertionSort pyStrLe (pyUnique (f.rows.map (·.game_id))))).1
                   r.game_id).getD 0})},
     (streakWalk rng (rng.seed 42) 0
       (List.insertionSort pyStrLe (pyUnique (f.rows.map (·.game_id))))).2)
  else
    ({f with cols := {f.cols with estimated_streak := true},
             rows := (drawStreakRows rng (rng.seed 42) f.rows).1},
     (drawStreakRows rng (rng.seed 42) f.rows).2)

/-- `_prepare_enhanced_data`: the five derivation stages in order, on a
non-empty frame. -/
def prepareEnhancedData {σ : Type} (rng : Rng σ) (s : σ) (f : Frame) : Frame × σ :=
  if f.rows.isEmpty then (f, s)
  else
    addStreak rng
      (addMinutesPlayed rng (addScoreMargin rng s (addRestDays (addGameNumbers f))).2
        (addScoreMargin rng s (addRestDays (addGameNumbers f))).1).2
      (addMinutesPlayed rng (addScoreMargin rng s (addRestDays (addGameNumbers f))).2
        (addScoreMargin rng s (addRestDays (addGameNumbers f))).1).1

theorem addScoreMargin_fst_congr {σ : Type} (rng : Rng σ) (s₁ s₂ : σ) (f : Frame) :
    (addScoreMargin rng s₁ f).1 = (addScoreMargin rng s₂ f).1 := by
  unfold addScoreMargin
  by_cases h1 : f.cols.period = true
  · by_cases h2 : f.cols.game_id = true <;> simp [h1, h2]
  · simp [h1]

theorem addMinutesPlayed_fst_congr {σ : Type} (rng : Rng σ) (s₁ s₂ : σ) (f : Frame) :
    (addMinutesPlayed rng s₁ f).1 = (addMinutesPlayed rng s₂ f).1 := by
  unfold addMinutesPlayed
  by_cases h1 : (f.cols.period && f.cols.minutes_remaining) = true
  · simp [h1]
  · by_cases h2 : f.cols.period = true <;> simp [h1, h2] <;> split <;> rfl

theorem addStreak_fst_congr {σ : Type} (rng : Rng σ) (s₁ s₂ : σ) (f : Frame) :
    (addStreak rng s₁ f).1 = (addStreak rng s₂ f).1 := by
  unfold addStreak
  by_cases h1 : f.cols.game_id = true <;> simp [h1]

/-- C8: the feature derivation pipeline re-seeds the generator (seed 42)
before every random draw, so running `_prepare_enhanced_data` on the same
input frame from any two ambient generator states - in particular running it
twice in a row - produces the same enriched frame, hence identical
`game_num`, `rest_days`, `estimated_margin`, `estimated_minutes` and
`estimated_streak` columns. -/
theorem C8_two_run_determinism {σ : Type} (rng : Rng σ) (s₁ s₂ : σ) (f : Frame) :
    (prepareEnhancedData rng s₁ f).1 = (prepareEnhancedData rng s₂ f).1 := by
  unfold prepareEnhancedData
  by_cases he : f.rows.isEmpty = true
  · simp [he]
  · rw [if_neg (by simp [he]), if_neg (by simp [he])]
    have hm := addScoreMargin_fst_congr rng s₁ s₂ (addRestDays (addGameNumbers f))
    rw [hm]
    have hmin := addMinutesPlayed_fst_congr rng
      (addScoreMargin rng s₁ (addRestDays (addGameNumbers f))).2
      (addScoreMargin rng s₂ (addRestDays (addGameNumbers f))).2
      (addScoreMargin rng s₂ (addRestDays (addGameNumbers f))).1
    rw [hmin]
    exact addStreak_fst_congr rng _ _ _

/-! ### C10: every filter narrows, never invents rows -/

theorem iteFrame_sublist {c : Prop} [Decidable c] {a b : Frame} {rows : List Row}
    (ha : a.rows.Sublist rows) (hb : b.rows.Sublist rows) :
    (if c then a else b).rows.Sublist rows := by
  split
  · exact ha
  · exact hb

theorem homeAwayFallback_sublist {σ : Type} (rng : Rng σ) (f : Frame) (v : String) :
    (homeAwayFallback rng f v).rows.Sublist f.rows := by
  unfold homeAwayFallback
  repeat' split
  all_goals exact List.filter_sublist _

theorem filterHomeAway_sublist {σ : Type} (rng : Rng σ) (f : Frame) (v team : String) :
    (filterHomeAway rng f v team).rows.Sublist f.rows := by
  unfold filterHomeAway
  repeat' split
  all_goals first
    | exact List.filter_sublist _
    | exact homeAwayFallback_sublist rng f v

theorem filterQuarter_sublist (f : Frame) (v : String) :
    (filterQuarter f v).rows.Sublist f.rows := by
  unfold filterQuarter
  repeat' split
  all_goals first
    | exact List.filter_sublist _
    | exact List.Sublist.refl _

theorem seasonPhaseGameNum_sublist (f : Frame) (v : String) :
    (seasonPhaseGameNum f v).rows.Sublist f.rows := by
  unfold seasonPhaseGameNum
  repeat' split
  all_goals first
    | exact List.filter_sublist _
    | exact List.Sublist.refl _

theorem filterSeasonPhase_sublist (f : Frame) (v : String) :
    (filterSeasonPhase f v).rows.Sublist f.rows := by
  unfold filterSeasonPhase
  repeat' split
  all_goals first
    | exact List.filter_sublist _
    | exact (seasonPhaseGameNum_sublist _ _).trans (List.filter_sublist _)
    | exact seasonPhaseGameNum_sublist _ _

theorem filterScoreMargin_sublist (f : Frame) (v : String) :
    (filterScoreMargin f v).rows.Sublist f.rows := by
  unfold filterScoreMargin
  repeat' split
  all_goals first
    | exact List.filter_sublist _
    | exact List.Sublist.refl _

theorem filterGameFlow_sublist (f : Frame) (v : String) :
    (filterGameFlow f v).rows.Sublist f.rows := by
  unfold filterGameFlow
  repeat' split
  all_goals first
    | exact List.filter_sublist _
    | exact List.Sublist.refl _

theorem filterRestDays_sublist (f : Frame) (v : String) :
    (filterRestDays f v).rows.Sublist f.rows := by
  unfold filterRestDays
  repeat' split
  all_goals first
    | exact List.filter_sublist _
    | exact List.Sublist.refl _

theorem filterStreak_sublist (f : Frame) (v : String) :
    (filterStreak f v).rows.Sublist f.rows := by
  unfold filterStreak
  repeat' first
    | exact List.Sublist.refl _
    | exact List.filter_sublist _
    | apply iteFrame_sublist

theorem filterBackToBack_sublist (f : Frame) (v : String) :
    (filterBackToBack f v).rows.Sublist f.rows := by
  unfold filterBackToBack
  repeat' split
  all_goals first
    | exact List.filter_sublist _
    | exact List.Sublist.refl _

theorem filterMinutesPlayed_sublist (f : Frame) (v : String) :
    (filterMinutesPlayed f v).rows.Sublist f.rows := by
  unfold filterMinutesPlayed
  repeat' split
  all_goals first
    | exact List.filter_sublist _
    | exact List.Sublist.refl _

theorem applySingleFilter_sublist {σ : Type} (rng : Rng σ) (f : Frame) (dim v team : String) :
    (applySingleFilter rng f dim v team).rows.Sublist f.rows := by
  unfold applySingleFilter
  repeat' split
  all_goals first
    | exact filterHomeAway_sublist rng f v team
    | exact filterQuarter_sublist f v
    | exact filterSeasonPhase_sublist f v
    | exact filterScoreMargin_sublist f v
    | exact filterGameFlow_sublist f v
    | exact filterRestDays_sublist f v
    | exact filterStreak_sublist f v
    | exact filterBackToBack_sublist f v
    | exact filterMinutesPlayed_sublist f v
    | exact List.Sublist.refl _

theorem applyFiltersGo_sublist {σ : Type} (rng : Rng σ) (team : String) :
    ∀ (filters : List (String × String)) (data : Frame),
      (applyFiltersGo rng team data filters).rows.Sublist data.rows := by
  intro filters
  induction filters with
  | nil => intro data; exact List.Sublist.refl _
  | cons e rest ih =>
    intro data
    obtain ⟨n, v⟩ := e
    simp only [applyFiltersGo]
    split
    · exact ih data
    · split
      · exact applySingleFilter_sublist rng data n v team
      · exact (ih _).trans (applySingleFilter_sublist rng data n v team)

/-- C10: a single filter application only keeps rows of its input (in input
order, never adding or editing a row); an unrecognized dimension name returns
the frame unchanged; and `apply_all_filters` therefore returns a sub-sequence
of the stored shot set's rows, for every generator, frame, dimension, option,
team and filter mapping. -/
theorem C10_filters_only_narrow {σ : Type} (rng : Rng σ) (f : Frame)
    (dim v team player : String) (filters : List (String × String)) :
    (applySingleFilter rng f dim v team).rows.Sublist f.rows
    ∧ (dim ∉ ["home_away", "quarter", "season_phase", "score_margin", "game_flow",
        "rest_days", "streak", "back_to_back", "minutes_played"] →
      applySingleFilter rng f dim v team = f)
    ∧ (applyAllFilters rng f player team filters).rows.Sublist f.rows := by
  refine ⟨applySingleFilter_sublist rng f dim v team, ?_, ?_⟩
  · intro hno
    simp only [List.mem_cons, List.mem_singleton, not_or] at hno
    obtain ⟨h1, h2, h3, h4, h5, h6, h7, h8, h9⟩ := hno
    simp [applySingleFilter, h1, h2, h3, h4, h5, h6, h7, h8, h9]
  · unfold applyAllFilters
    split
    · exact List.Sublist.refl _
    · exact applyFiltersGo_sublist rng team filters f

/-- Witness for C10: an unrecognized dimension (`"bogus"`) on a one-row frame
with a two-entry filter spec. -/
theorem C10_filters_only_narrow_witness :
    ("bogus" ∉ ["home_away", "quarter", "season_phase", "score_margin", "game_flow",
        "rest_days", "streak", "back_to_back", "minutes_played"])
    ∧ ((applySingleFilter trivRng ⟨⟨true, true, true, true, true, true, true, true, true, true,
          true, true, true⟩, []⟩ "bogus" "Home" "Utah Jazz").rows.Sublist []
      ∧ ("bogus" ∉ ["home_away", "quarter", "season_phase", "score_margin", "game_flow",
          "rest_days", "streak", "back_to_back", "minutes_played"] →
        applySingleFilter trivRng ⟨⟨true, true, true, true, true, true, true, true, true, true,
          true, true, true⟩, []⟩ "bogus" "Home" "Utah Jazz"
          = ⟨⟨true, true, true, true, true, true, true, true, true, true, true, true, true⟩, []⟩)
      ∧ (applyAllFilters trivRng ⟨⟨true, true, true, true, true, true, true, true, true, true,
          true, true, true⟩, []⟩ "P" "Utah Jazz"
          [("quarter", "1st"), ("bogus", "x")]).rows.Sublist []) :=
  ⟨by decide,
   C10_filters_only_narrow trivRng
     ⟨⟨true, true, true, true, true, true, true, true, true, true, true, true, true⟩, []⟩
     "bogus" "Home" "Utah Jazz" "P" [("quarter", "1st"), ("bogus", "x")]⟩

/-! ### C7: behaviour of each predicate on a missing required column -/

/-- The column each dimension's predicate requires, among the six named by the
specification (`rest_days`, `estimated_margin`, `estimated_minutes`,
`estimated_streak`, `period`, `season_type`, "as applicable"): the proposition
that it is absent from the frame. `home_away` and unknown dimensions require
none of them. -/
def requiredColMissing (dim : String) (cols : Cols) : Prop :=
  if dim = "quarter" then cols.period = false
  else if dim = "score_margin" ∨ dim = "game_flow" then cols.estimated_margin = false
  else if dim = "rest_days" ∨ dim = "back_to_back" then cols.rest_days = false
  else if dim = "streak" then cols.estimated_streak = false
  else if dim = "minutes_played" then cols.estimated_minutes = false
  else if dim = "season_phase" then cols.season_type = false
  else False

/-- C7 as claimed: a predicate whose required column is absent returns its
input unchanged. -/
def claimC7 : Prop :=
  ∀ (σ : Type) (rng : Rng σ) (f : Frame) (dim v team : String),
    v ≠ "All" → requiredColMissing dim f.cols →
    applySingleFilter rng f dim v team = f

/-- A row with the given index, game id, date and period, every other field at
its default. -/
def mkRow (i : Nat) (g : String) (d : Date) (p : Nat) : Row :=
  ⟨i, g, d, p, 0, "", "", "", "", 0, 0, 0, 0, 0⟩

/-- The C7 counterexample frame: `season_type` absent, `game_num` present,
one row in game 30. -/
def cexC7Frame : Frame :=
  ⟨⟨false, false, false, false, false, false, false, false, true, false, false, false, false⟩,
   [{mkRow 0 "g" ⟨2021, 11, 5⟩ 1 with game_num := 30}]⟩

/-- C7 fails on the code: with `season_type` absent but `game_num` present,
the season-phase predicate still narrows by game number (here `"Early Season
(Games 1-25)"` removes the game-30 row), so the missing-required-column
contract does not return the input unchanged. -/
theorem C7_counterexample : ¬ claimC7 := by
  intro h
  have hmiss : requiredColMissing "season_phase" cexC7Frame.cols := by
    simp [requiredColMissing, cexC7Frame]
  have := h Unit trivRng cexC7Frame "season_phase" "Early Season (Games 1-25)" "T"
    (by decide) hmiss
  exact absurd this (by decide)

/-- C7 (amended): for every dimension other than `season_phase`, a missing
required column returns the input frame unchanged (and the predicate, a total
function, never raises). For `season_phase` a missing `season_type` only
skips the season-type narrowing: the frame is returned unchanged when
`game_num` is also absent, and for the pure `"Playoffs Only"` /
`"Regular Season Only"` options; but the Early/Mid/Late options still narrow
by `game_num` when that column is present. -/
theorem C7_amended_missing_columns {σ : Type} (rng : Rng σ) (f : Frame)
    (dim v team : String) (hv : v ≠ "All") :
    (dim ≠ "season_phase" → requiredColMissing dim f.cols →
      applySingleFilter rng f dim v team = f)
    ∧ (dim = "season_phase" → f.cols.season_type = false → f.cols.game_num = false →
      applySingleFilter rng f dim v team = f)
    ∧ (dim = "season_phase" → f.cols.season_type = false →
      (v = "Playoffs Only" ∨ v = "Regular Season Only") →
      applySingleFilter rng f dim v team = f) := by
  refine ⟨?_, ?_, ?_⟩
  · intro hdim hmiss
    unfold requiredColMissing at hmiss
    by_cases h1 : dim = "quarter"
    · rw [if_pos h1] at hmiss
      subst h1
      simp [applySingleFilter, filterQuarter, hmiss]
    · rw [if_neg h1] at hmiss
      by_cases h2 : dim = "score_margin" ∨ dim = "game_flow"
      · rw [if_pos h2] at hmiss
        rcases h2 with h2 | h2 <;> subst h2
        · simp [applySingleFilter, filterScoreMargin, hmiss]
        · simp [applySingleFilter, filterGameFlow, hmiss]
      · rw [if_neg h2] at hmiss
        by_cases h3 : dim = "rest_days" ∨ dim = "back_to_back"
        · rw [if_pos h3] at hmiss
          rcases h3 with h3 | h3 <;> subst h3
          · simp [applySingleFilter, filterRestDays, hmiss]
          · simp [applySingleFilter, filterBackToBack, hmiss]
        · rw [if_neg h3] at hmiss
          by_cases h4 : dim = "streak"
          · rw [if_pos h4] at hmiss
            subst h4
            simp [applySingleFilter, filterStreak, hmiss]
          · rw [if_neg h4] at hmiss
            by_cases h5 : dim = "minutes_played"
            · rw [if_pos h5] at hmiss
              subst h5
              simp [applySingleFilter, filterMinutesPlayed, hmiss]
            · rw [if_neg h5] at hmiss
              by_cases h6 : dim = "season_phase"
              · exact absurd h6 hdim
              · rw [if_neg h6] at hmiss
                exact hmiss.elim
  · intro hdim h1 h2
    subst hdim
    simp [applySingleFilter, filterSeasonPhase, h1, seasonPhaseGameNum, h2]
  · intro hdim h1 hopt
    subst hdim
    rcases hopt with hopt | hopt <;> subst hopt
    · have hE : containsSub "Playoffs Only" "Early" = false := by decide
      have hM : containsSub "Playoffs Only" "Mid" = false := by decide
      have hL : containsSub "Playoffs Only" "Late" = false := by decide
      simp [applySingleFilter, filterSeasonPhase, h1, seasonPhaseGameNum, hE, hM, hL]
    · have hE : containsSub "Regular Season Only" "Early" = false := by decide
      have hM : containsSub "Regular Season Only" "Mid" = false := by decide
      have hL : containsSub "Regular Season Only" "Late" = false := by decide
      simp [applySingleFilter, filterSeasonPhase, h1, seasonPhaseGameNum, hE, hM, hL]

/-- Witness for C7 (amended): the quarter filter on a frame without a
`period` column returns the frame unchanged. -/
theorem C7_amended_missing_columns_witness :
    ("1st" : String) ≠ "All"
    ∧ (("quarter" : String) ≠ "season_phase" →
        requiredColMissing "quarter" cexC7Frame.cols →
        applySingleFilter trivRng cexC7Frame "quarter" "1st" "T" = cexC7Frame)
    ∧ (("quarter" : String) = "season_phase" → cexC7Frame.cols.season_type = false →
        cexC7Frame.cols.game_num = false →
        applySingleFilter trivRng cexC7Frame "quarter" "1st" "T" = cexC7Frame)
    ∧ (("quarter" : String) = "season_phase" → cexC7Frame.cols.season_type = false →
        ("1st" : String) = "Playoffs Only" ∨ ("1st" : String) = "Regular Season Only" →
        applySingleFilter trivRng cexC7Frame "quarter" "1st" "T" = cexC7Frame) := by
  refine ⟨by decide, ?_⟩
  exact C7_amended_missing_columns trivRng cexC7Frame "quarter" "1st" "T" (by decide)

/-! ### C6: commutation of row-local filter pairs

Each predicate below is the row test of the corresponding filter's
branches; `applySingleFilter_eq` shows that on its row-local branches a
filter is exactly `List.filter` of that test, with the test depending only on
the column set (which filtering preserves) - the key to commutation. -/

theorem frame_filter_id (f : Frame) (p : Row → Bool) (hp : ∀ r, p r = true) :
    f = {f with rows := f.rows.filter p} := by
  have h : f.rows.filter p = f.rows := by
    rw [List.filter_eq_self]
    intro a _
    rw [hp]
  rw [h]

theorem frame_filter_eqv (f : Frame) (q p : Row → Bool) (h : ∀ r, q r = p r) :
    ({f with rows := f.rows.filter q} : Frame) = {f with rows := f.rows.filter p} := by
  have h' : f.rows.filter q = f.rows.filter p := List.filter_congr (fun a _ => h a)
  rw [h']

/-- Row test of the explicit-columns and matchup branches of
`_filter_home_away_fixed`. -/
def homeAwayPred (cols : Cols) (v team : String) (r : Row) : Bool :=
  if cols.home_team && cols.visiting_team then
    if v == "Home" then (getTeamNameVariations team).contains r.home_team
    else if v == "Away" then (getTeamNameVariations team).contains r.visiting_team
    else true
  else if cols.matchup then
    if v == "Home" then
      !(containsSub r.matchup "@") || pyStartsWith r.matchup (homeAwayAbbr team)
        || containsSub r.matchup (homeAwayAbbr team ++ " vs")
    else if v == "Away" then
      containsSub r.matchup "@" || containsSub r.matchup ("@ " ++ homeAwayAbbr team)
        || containsSub r.matchup ("at " ++ homeAwayAbbr team)
    else true
  else true

/-- Row test of `_filter_quarter`. -/
def quarterPred (cols : Cols) (v : String) (r : Row) : Bool :=
  if !cols.period then true
  else
    match alookup [("1st", 1), ("2nd", 2), ("3rd", 3), ("4th", 4)] v with
    | some q => r.period == q
    | none => if v == "OT" then decide (5 ≤ r.period) else true

/-- Row test of the game-number half of `_filter_season_phase`. -/
def gameNumPred (cols : Cols) (v : String) (r : Row) : Bool :=
  if !cols.game_num then true
  else if containsSub v "Early" then decide (r.game_num ≤ 25)
  else if containsSub v "Mid" then decide (25 < r.game_num) && decide (r.game_num ≤ 60)
  else if containsSub v "Late" then decide (60 < r.game_num)
  else true

/-- Row test of `_filter_season_phase`. -/
def seasonPhasePred (cols : Cols) (v : String) (r : Row) : Bool :=
  if cols.season_type then
    if v == "Playoffs Only" then containsCI r.season_type "Playoff"
    else if v == "Regular Season Only" then containsCI r.season_type "Regular"
    else if containsSub v "Playoffs" then containsCI r.season_type "Playoff"
    else containsCI r.season_type "Regular" && gameNumPred cols v r
  else gameNumPred cols v r

/-- Row test of `_filter_score_margin`. -/
def scoreMarginPred (cols : Cols) (v : String) (r : Row) : Bool :=
  if !cols.estimated_margin then true
  else if containsSub v "Close" || containsSub v "Clutch" then decide (|r.estimated_margin| ≤ 10)
  else if containsSub v "Blowout" then decide (10 < |r.estimated_margin|)
  else if containsSub v "Competitive" then decide (|r.estimated_margin| ≤ 5)
  else true

/-- Row test of `_filter_game_flow`. -/
def gameFlowPred (cols : Cols) (v : String) (r : Row) : Bool :=
  if !cols.estimated_margin then true
  else if v == "Leading" then decide (2 < r.estimated_margin)
  else if v == "Trailing" then decide (r.estimated_margin < -2)
  else if v == "Tied" then decide (|r.estimated_margin| ≤ 2)
  else true

/-- Row test of `_filter_rest_days`. -/
def restDaysPred (cols : Cols) (v : String) (r : Row) : Bool :=
  if !cols.rest_days then true
  else if v == "Back-to-Back (0 days)" || v == "Back-to-Back" then r.rest_days == 0
  else if v == "1 Day Rest" then r.rest_days == 1
  else if v == "2 Days Rest" then r.rest_days == 2
  else if v == "3+ Days Rest" then decide (3 ≤ r.rest_days)
  else if v == "1+ Days Rest" then decide (1 ≤ r.rest_days)
  else if v == "2+ Days Rest" then decide (2 ≤ r.rest_days)
  else true

/-- Row test of `_filter_streak`. -/
def streakPred (cols : Cols) (v : String) (r : Row) : Bool :=
  if !cols.estimated_streak then true
  else if v == "Win Streak (Any)" then decide (0 < r.estimated_streak)
  else if v == "2+ Game Win Streak" then decide (2 ≤ r.estimated_streak)
  else if v == "3+ Game Win Streak" then decide (3 ≤ r.estimated_streak)
  else if v == "5+ Game Win Streak" then decide (5 ≤ r.estimated_streak)
  else if v == "Loss Streak (Any)" then decide (r.estimated_streak < 0)
  else if v == "2+ Game Loss Streak" then decide (r.estimated_streak ≤ -2)
  else if v == "3+ Game Loss Streak" then decide (r.estimated_streak ≤ -3)
  else if v == "5+ Game Loss Streak" then decide (r.estimated_streak ≤ -5)
  else if v == "No Streak" then r.estimated_streak == 0
  else if v == "Win Streak" then decide (0 < r.estimated_streak)
  else if v == "Loss Streak" then decide (r.estimated_streak < 0)
  else if v == "Neutral" then r.estimated_streak == 0
  else true

/-- Row test of `_filter_back_to_back`. -/
def backToBackPred (cols : Cols) (v : String) (r : Row) : Bool :=
  if !cols.rest_days then true
  else if v == "Yes" then r.rest_days == 0
  else if v == "No" then decide (0 < r.rest_days)
  else true

/-- Row test of `_filter_minutes_played`. -/
def minutesPlayedPred (cols : Cols) (v : String) (r : Row) : Bool :=
  if !cols.estimated_minutes then true
  else if containsSub v "Fresh" then decide (r.estimated_minutes ≤ 15)
  else if containsSub v "Normal" then
    decide (15 < r.estimated_minutes) && decide (r.estimated_minutes ≤ 30)
  else if containsSub v "Heavy" then
    decide (30 < r.estimated_minutes) && decide (r.estimated_minutes ≤ 40)
  else if containsSub v "Exhausted" then decide (40 < r.estimated_minutes)
  else if containsSub v "0-20" then decide (r.estimated_minutes ≤ 20)
  else if containsSub v "20-35" then
    decide (20 < r.estimated_minutes) && decide (r.estimated_minutes ≤ 35)
  else if containsSub v "35+" then decide (35 < r.estimated_minutes)
  else true

theorem filterQuarter_eq (f : Frame) (v : String) :
    filterQuarter f v = {f with rows := f.rows.filter (quarterPred f.cols v)} := by
  unfold filterQuarter
  by_cases h0 : (!f.cols.period) = true
  · rw [if_pos h0]
    exact frame_filter_id f _ (fun r => by simp [quarterPred, h0])
  · rw [if_neg h0]
    cases hq : alookup [("1st", 1), ("2nd", 2), ("3rd", 3), ("4th", 4)] v with
    | some q => exact frame_filter_eqv f _ _ (fun r => by simp [quarterPred, h0, hq])
    | none =>
      by_cases hot : (v == "OT") = true
      · rw [if_pos hot]
        exact frame_filter_eqv f _ _ (fun r => by simp [quarterPred, h0, hq, hot])
      · rw [if_neg hot]
        exact frame_filter_id f _ (fun r => by simp [quarterPred, h0, hq, hot])

theorem seasonPhaseGameNum_eq (f : Frame) (v : String) :
    seasonPhaseGameNum f v = {f with rows := f.rows.filter (gameNumPred f.cols v)} := by
  unfold seasonPhaseGameNum
  by_cases h0 : (!f.cols.game_num) = true
  · rw [if_pos h0]
    exact frame_filter_id f _ (fun r => by simp [gameNumPred, h0])
  · rw [if_neg h0]
    by_cases h1 : containsSub v "Early" = true
    · rw [if_pos h1]
      exact frame_filter_eqv f _ _ (fun r => by simp [gameNumPred, h0, h1])
    · rw [if_neg h1]
      by_cases h2 : containsSub v "Mid" = true
      · rw [if_pos h2]
        exact frame_filter_eqv f _ _ (fun r => by simp [gameNumPred, h0, h1, h2])
      · rw [if_neg h2]
        by_cases h3 : containsSub v "Late" = true
        · rw [if_pos h3]
          exact frame_filter_eqv f _ _ (fun r => by simp [gameNumPred, h0, h1, h2, h3])
        · rw [if_neg h3]
          exact frame_filter_id f _ (fun r => by simp [gameNumPred, h0, h1, h2, h3])

theorem filterSeasonPhase_eq (f : Frame) (v : String) :
    filterSeasonPhase f v = {f with rows := f.rows.filter (seasonPhasePred f.cols v)} := by
  unfold filterSeasonPhase
  by_cases h0 : f.cols.season_type = true
  · rw [if_pos h0]
    by_cases h1 : (v == "Playoffs Only") = true
    · rw [if_pos h1]
      exact frame_filter_eqv f _ _ (fun r => by simp [seasonPhasePred, h0, h1])
    · rw [if_neg h1]
      by_cases h2 : (v == "Regular Season Only") = true
      · rw [if_pos h2]
        exact frame_filter_eqv f _ _ (fun r => by simp [seasonPhasePred, h0, h1, h2])
      · rw [if_neg h2]
        by_cases h3 : containsSub v "Playoffs" = true
        · rw [if_pos h3]
          exact frame_filter_eqv f _ _ (fun r => by simp [seasonPhasePred, h0, h1, h2, h3])
        · rw [if_neg h3]
          rw [seasonPhaseGameNum_eq]
          have hred : (f.rows.filter (fun r => containsCI r.season_type "Regular")).filter
              (gameNumPred f.cols v) = f.rows.filter (seasonPhasePred f.cols v) := by
            rw [List.filter_filter]
            exact List.filter_congr
              (fun a _ => by simp [seasonPhasePred, h0, h1, h2, h3, Bool.and_comm])
          exact congrArg (fun l => ({ cols := f.cols, rows := l } : Frame)) hred
  · rw [if_neg h0]
    rw [seasonPhaseGameNum_eq]
    exact frame_filter_eqv f _ _ (fun r => by simp [seasonPhasePred, h0])

theorem filterScoreMargin_eq (f : Frame) (v : String) :
    filterScoreMargin f v = {f with rows := f.rows.filter (scoreMarginPred f.cols v)} := by
  unfold filterScoreMargin
  by_cases h0 : (!f.cols.estimated_margin) = true
  · rw [if_pos h0]
    exact frame_filter_id f _ (fun r => by simp [scoreMarginPred, h0])
  · rw [if_neg h0]
    by_cases h1 : (containsSub v "Close" || containsSub v "Clutch") = true
    · rw [if_pos h1]
      exact frame_filter_eqv f _ _ (fun r => by simp [scoreMarginPred, h0, h1])
    · rw [if_neg h1]
      by_cases h2 : containsSub v "Blowout" = true
      · rw [if_pos h2]
        exact frame_filter_eqv f _ _ (fun r => by simp [scoreMarginPred, h0, h1, h2])
      · rw [if_neg h2]
        by_cases h3 : containsSub v "Competitive" = true
        · rw [if_pos h3]
          exact frame_filter_eqv f _ _ (fun r => by simp [scoreMarginPred, h0, h1, h2, h3])
        · rw [if_neg h3]
          exact frame_filter_id f _ (fun r => by simp [scoreMarginPred, h0, h1, h2, h3])

theorem filterGameFlow_eq (f : Frame) (v : String) :
    filterGameFlow f v = {f with rows := f.rows.filter (gameFlowPred f.cols v)} := by
  unfold filterGameFlow
  by_cases h0 : (!f.cols.estimated_margin) = true
  · rw [if_pos h0]
    exact frame_filter_id f _ (fun r => by simp [gameFlowPred, h0])
  · rw [if_neg h0]
    by_cases h1 : (v == "Leading") = true
    · rw [if_pos h1]
      exact frame_filter_eqv f _ _ (fun r => by simp [gameFlowPred, h0, h1])
    · rw [if_neg h1]
      by_cases h2 : (v == "Trailing") = true
      · rw [if_pos h2]
        exact frame_filter_eqv f _ _ (fun r => by simp [gameFlowPred, h0, h1, h2])
      · rw [if_neg h2]
        by_cases h3 : (v == "Tied") = true
        · rw [if_pos h3]
          exact frame_filter_eqv f _ _ (fun r => by simp [gameFlowPred, h0, h1, h2, h3])
        · rw [if_neg h3]
          exact frame_filter_id f _ (fun r => by simp [gameFlowPred, h0, h1, h2, h3])

theorem filterRestDays_eq (f : Frame) (v : String) :
    filterRestDays f v = {f with rows := f.rows.filter (restDaysPred f.cols v)} := by
  unfold filterRestDays
  repeat' split
  all_goals first
    | exact frame_filter_id f _ (fun r => by simp [restDaysPred, *])
    | exact frame_filter_eqv f _ _ (fun r => by simp [restDaysPred, *])

theorem filterStreak_eq (f : Frame) (v : String) :
    filterStreak f v = {f with rows := f.rows.filter (streakPred f.cols v)} := by
  unfold filterStreak
  by_cases h0 : (!f.cols.estimated_streak) = true
  · rw [if_pos h0]
    exact frame_filter_id f _ (fun r => by simp [streakPred, h0])
  · rw [if_neg h0]
    by_cases h1 : (v == "Win Streak (Any)") = true
    · rw [if_pos h1]
      exact frame_filter_eqv f _ _ (fun r => by simp [streakPred, h0, h1])
    · rw [if_neg h1]
      by_cases h2 : (v == "2+ Game Win Streak") = true
      · rw [if_pos h2]
        exact frame_filter_eqv f _ _ (fun r => by simp [streakPred, h0, h1, h2])
      · rw [if_neg h2]
        by_cases h3 : (v == "3+ Game Win Streak") = true
        · rw [if_pos h3]
          exact frame_filter_eqv f _ _ (fun r => by simp [streakPred, h0, h1, h2, h3])
        · rw [if_neg h3]
          by_cases h4 : (v == "5+ Game Win Streak") = true
          · rw [if_pos h4]
            exact frame_filter_eqv f _ _ (fun r => by simp [streakPred, h0, h1, h2, h3, h4])
          · rw [if_neg h4]
            by_cases h5 : (v == "Loss Streak (Any)") = true
            · rw [if_pos h5]
              exact frame_filter_eqv f _ _ (fun r => by simp [streakPred, h0, h1, h2, h3, h4, h5])
            · rw [if_neg h5]
              by_cases h6 : (v == "2+ Game Loss Streak") = true
              · rw [if_pos h6]
                exact frame_filter_eqv f _ _ (fun r => by simp [streakPred, h0, h1, h2, h3, h4, h5, h6])
              · rw [if_neg h6]
                by_cases h7 : (v == "3+ Game Loss Streak") = true
                · rw [if_pos h7]
                  exact frame_filter_eqv f _ _ (fun r => by simp [streakPred, h0, h1, h2, h3, h4, h5, h6, h7])
                · rw [if_neg h7]
                  by_cases h8 : (v == "5+ Game Loss Streak") = true
                  · rw [if_pos h8]
                    exact frame_filter_eqv f _ _ (fun r => by simp [streakPred, h0, h1, h2, h3, h4, h5, h6, h7, h8])
                  · rw [if_neg h8]
                    by_cases h9 : (v == "No Streak") = true
                    · rw [if_pos h9]
                      exact frame_filter_eqv f _ _ (fun r => by simp [streakPred, h0, h1, h2, h3, h4, h5, h6, h7, h8, h9])
                    · rw [if_neg h9]
                      by_cases h10 : (v == "Win Streak") = true
                      · rw [if_pos h10]
                        exact frame_filter_eqv f _ _ (fun r => by simp [streakPred, h0, h1, h2, h3, h4, h5, h6, h7, h8, h9, h10])
                      · rw [if_neg h10]
                        by_cases h11 : (v == "Loss Streak") = true
                        · rw [if_pos h11]
                          exact frame_filter_eqv f _ _ (fun r => by simp [streakPred, h0, h1, h2, h3, h4, h5, h6, h7, h8, h9, h10, h11])
                        · rw [if_neg h11]
                          by_cases h12 : (v == "Neutral") = true
                          · rw [if_pos h12]
                            exact frame_filter_eqv f _ _ (fun r => by simp [streakPred, h0, h1, h2, h3, h4, h5, h6, h7, h8, h9, h10, h11, h12])
                          · rw [if_neg h12]
                            exact frame_filter_id f _ (fun r => by simp [streakPred, h0, h1, h2, h3, h4, h5, h6, h7, h8, h9, h10, h11, h12])

theorem filterBackToBack_eq (f : Frame) (v : String) :
    filterBackToBack f v = {f with rows := f.rows.filter (backToBackPred f.cols v)} := by
  unfold filterBackToBack
  repeat' split
  all_goals first
    | exact frame_filter_id f _ (fun r => by simp [backToBackPred, *])
    | exact frame_filter_eqv f _ _ (fun r => by simp [backToBackPred, *])

theorem filterMinutesPlayed_eq (f : Frame) (v : String) :
    filterMinutesPlayed f v = {f with rows := f.rows.filter (minutesPlayedPred f.cols v)} := by
  unfold filterMinutesPlayed
  repeat' split
  all_goals first
    | exact frame_filter_id f _ (fun r => by simp [minutesPlayedPred, *])
    | exact frame_filter_eqv f _ _ (fun r => by simp [minutesPlayedPred, *])

theorem filterHomeAway_eq {σ : Type} (rng : Rng σ) (f : Frame) (v team : String)
    (hv : v = "Home" ∨ v = "Away")
    (hcols : (f.cols.home_team && f.cols.visiting_team) = true ∨ f.cols.matchup = true) :
    filterHomeAway rng f v team
      = {f with rows := f.rows.filter (homeAwayPred f.cols v team)} := by
  unfold filterHomeAway
  repeat' split
  all_goals first
    | exact frame_filter_eqv f _ _ (fun r => by simp [homeAwayPred, *])
    | (rcases hv with hv | hv <;> subst hv <;> simp_all)
    | (rcases hcols with hc | hc <;> simp_all)

/-- The row test of `_apply_single_filter` on its row-local branches. -/
def rowPred (dim v team : String) (cols : Cols) (r : Row) : Bool :=
  if dim == "home_away" then homeAwayPred cols v team r
  else if dim == "quarter" then quarterPred cols v r
  else if dim == "season_phase" then seasonPhasePred cols v r
  else if dim == "score_margin" then scoreMarginPred cols v r
  else if dim == "game_flow" then gameFlowPred cols v r
  else if dim == "rest_days" then restDaysPred cols v r
  else if dim == "streak" then streakPred cols v r
  else if dim == "back_to_back" then backToBackPred cols v r
  else if dim == "minutes_played" then minutesPlayedPred cols v r
  else true

/-- A dimension/option pair is row-local on a column set when it does not hit
the seeded random fallback of `_filter_home_away_fixed`: every other branch of
every filter tests rows one at a time. -/
def RowLocal (cols : Cols) (dim v : String) : Prop :=
  dim ≠ "home_away"
  ∨ ((v = "Home" ∨ v = "Away")
     ∧ ((cols.home_team && cols.visiting_team) = true ∨ cols.matchup = true))

theorem applySingleFilter_eq {σ : Type} (rng : Rng σ) (f : Frame) (dim v team : String)
    (hloc : RowLocal f.cols dim v) :
    applySingleFilter rng f dim v team
      = {f with rows := f.rows.filter (rowPred dim v team f.cols)} := by
  unfold applySingleFilter
  by_cases h1 : (dim == "home_away") = true
  · rw [if_pos h1]
    have hha : (v = "Home" ∨ v = "Away")
        ∧ ((f.cols.home_team && f.cols.visiting_team) = true ∨ f.cols.matchup = true) := by
      rcases hloc with hloc | hloc
      · exact absurd (eq_of_beq h1) hloc
      · exact hloc
    rw [filterHomeAway_eq rng f v team hha.1 hha.2]
    exact frame_filter_eqv f _ _ (fun r => by simp [rowPred, h1])
  · rw [if_neg h1]
    by_cases h2 : (dim == "quarter") = true
    · rw [if_pos h2, filterQuarter_eq]
      exact frame_filter_eqv f _ _ (fun r => by simp [rowPred, h1, h2])
    · rw [if_neg h2]
      by_cases h3 : (dim == "season_phase") = true
      · rw [if_pos h3, filterSeasonPhase_eq]
        exact frame_filter_eqv f _ _ (fun r => by simp [rowPred, h1, h2, h3])
      · rw [if_neg h3]
        by_cases h4 : (dim == "score_margin") = true
        · rw [if_pos h4, filterScoreMargin_eq]
          exact frame_filter_eqv f _ _ (fun r => by simp [rowPred, h1, h2, h3, h4])
        · rw [if_neg h4]
          by_cases h5 : (dim == "game_flow") = true
          · rw [if_pos h5, filterGameFlow_eq]
            exact frame_filter_eqv f _ _ (fun r => by simp [rowPred, h1, h2, h3, h4, h5])
          · rw [if_neg h5]
            by_cases h6 : (dim == "rest_days") = true
            · rw [if_pos h6, filterRestDays_eq]
              exact frame_filter_eqv f _ _ (fun r => by simp [rowPred, h1, h2, h3, h4, h5, h6])
            · rw [if_neg h6]
              by_cases h7 : (dim == "streak") = true
              · rw [if_pos h7, filterStreak_eq]
                exact frame_filter_eqv f _ _
                  (fun r => by simp [rowPred, h1, h2, h3, h4, h5, h6, h7])
              · rw [if_neg h7]
                by_cases h8 : (dim == "back_to_back") = true
                · rw [if_pos h8, filterBackToBack_eq]
                  exact frame_filter_eqv f _ _
                    (fun r => by simp [rowPred, h1, h2, h3, h4, h5, h6, h7, h8])
                · rw [if_neg h8]
                  by_cases h9 : (dim == "minutes_played") = true
                  · rw [if_pos h9, filterMinutesPlayed_eq]
                    exact frame_filter_eqv f _ _
                      (fun r => by simp [rowPred, h1, h2, h3, h4, h5, h6, h7, h8, h9])
                  · rw [if_neg h9]
                    exact frame_filter_id f _
                      (fun r => by simp [rowPred, h1, h2, h3, h4, h5, h6, h7, h8, h9])

/-- Neither application order of the pair empties an intermediate or final
frame (the claim's side condition, taken in its strongest form). -/
def ordersNonempty {σ : Type} (rng : Rng σ) (f : Frame) (A B : String × String)
    (team : String) : Prop :=
  (applySingleFilter rng f A.1 A.2 team).rows ≠ []
  ∧ (applySingleFilter rng (applySingleFilter rng f A.1 A.2 team) B.1 B.2 team).rows ≠ []
  ∧ (applySingleFilter rng f B.1 B.2 team).rows ≠ []
  ∧ (applySingleFilter rng (applySingleFilter rng f B.1 B.2 team) A.1 A.2 team).rows ≠ []

/-- C6 as stated: on non-emptying inputs the two orders of any pair of
non-`"All"` filters give the same final row set. -/
def claimC6 : Prop :=
  ∀ (σ : Type) (rng : Rng σ), RngValid rng →
    ∀ (f : Frame) (A B : String × String) (player team : String),
      A.2 ≠ "All" → B.2 ≠ "All" → ordersNonempty rng f A B team →
      (applyAllFilters rng f player team [A, B]).rows
        = (applyAllFilters rng f player team [B, A]).rows

/-- The C6 counterexample frame: `game_id` and `period` columns only, three
one-shot games, one of them in the 2nd period. -/
def cexC6Frame : Frame :=
  ⟨⟨true, false, true, false, false, false, false, false, false, false, false, false, false⟩,
   [mkRow 0 "g1" ⟨2021, 11, 5⟩ 2, mkRow 1 "g2" ⟨2021, 11, 5⟩ 1,
    mkRow 2 "g3" ⟨2021, 11, 5⟩ 1]⟩

/-- C6 fails on the code: without home/visiting-team or matchup columns the
`home_away` filter falls back to a pseudo-random split of the current frame's
distinct game ids, so its row set depends on what was filtered before it.
Here `["home_away" := "Away", "quarter" := "1st"]` keeps two rows while the
reverse order keeps one, though no intermediate or final frame is empty. -/
theorem C6_counterexample : ¬ claimC6 := by
  intro h
  have := h Unit trivRng trivRng_valid cexC6Frame ("home_away", "Away") ("quarter", "1st")
    "p" "T" (by decide) (by decide) (by unfold ordersNonempty; decide)
  exact absurd this (by decide)

theorem applyAll_pair {σ : Type} (rng : Rng σ) (f : Frame) (A B : String × String)
    (player team : String) (hf : f.rows.isEmpty = false)
    (hA : (A.2 == "All") = false) (hB : (B.2 == "All") = false)
    (hne : (applySingleFilter rng f A.1 A.2 team).rows ≠ []) :
    applyAllFilters rng f player team [A, B]
      = applySingleFilter rng (applySingleFilter rng f A.1 A.2 team) B.1 B.2 team := by
  obtain ⟨nA, vA⟩ := A
  obtain ⟨nB, vB⟩ := B
  unfold applyAllFilters
  rw [if_neg (by simp [hf])]
  simp only [applyFiltersGo]
  rw [if_neg (by simp_all)]
  rw [if_neg (by simp only [beq_iff_eq, List.length_eq_zero]; exact hne)]
  rw [if_neg (by simp_all)]
  rw [ite_self]

/-- C6 (amended): the pair commutes whenever both filters are row-local, i.e.
neither hits the seeded random `home_away` fallback (the `home_away` dimension
with option Home/Away and explicit team or matchup columns present is fine):
each such filter is `List.filter` of a row test depending only on the column
set, filtering preserves the column set, and `List.filter` of two tests
commutes; non-emptiness of the first intermediate frame disables the early
exit in each order. -/
theorem C6_amended_commutes {σ : Type} (rng : Rng σ) (f : Frame) (A B : String × String)
    (player team : String) (hA : A.2 ≠ "All") (hB : B.2 ≠ "All")
    (hlA : RowLocal f.cols A.1 A.2) (hlB : RowLocal f.cols B.1 B.2)
    (hneA : (applySingleFilter rng f A.1 A.2 team).rows ≠ [])
    (hneB : (applySingleFilter rng f B.1 B.2 team).rows ≠ []) :
    (applyAllFilters rng f player team [A, B]).rows
      = (applyAllFilters rng f player team [B, A]).rows := by
  by_cases hf : f.rows.isEmpty = true
  · unfold applyAllFilters
    rw [if_pos hf, if_pos hf]
  · have hf' : f.rows.isEmpty = false := by simpa using hf
    rw [applyAll_pair rng f A B player team hf' (by simp [hA]) (by simp [hB]) hneA,
        applyAll_pair rng f B A player team hf' (by simp [hB]) (by simp [hA]) hneB]
    rw [applySingleFilter_eq rng f A.1 A.2 team hlA, applySingleFilter_eq rng f B.1 B.2 team hlB]
    rw [applySingleFilter_eq rng
      { cols := f.cols, rows := f.rows.filter (rowPred A.1 A.2 team f.cols) } B.1 B.2 team hlB]
    rw [applySingleFilter_eq rng
      { cols := f.cols, rows := f.rows.filter (rowPred B.1 B.2 team f.cols) } A.1 A.2 team hlA]
    dsimp only
    rw [List.filter_filter, List.filter_filter]
    exact List.filter_congr (fun a _ => by rw [Bool.and_comm])

/-- The commutation witness frame: `period` and `rest_days` columns, two
rows, one of which survives each filter. -/
def witC6Frame : Frame :=
  ⟨⟨false, false, true, false, false, false, false, false, false, true, false, false, false⟩,
   [mkRow 0 "g1" ⟨2021, 11, 5⟩ 1, mkRow 1 "g2" ⟨2021, 11, 6⟩ 2]⟩

/-- C6 (amended) at a concrete input: `quarter = "1st"` and
`rest_days = "Back-to-Back"` commute on `witC6Frame`. -/
theorem C6_amended_commutes_witness :
    (applyAllFilters trivRng witC6Frame "p" "T"
        [("quarter", "1st"), ("rest_days", "Back-to-Back")]).rows
      = (applyAllFilters trivRng witC6Frame "p" "T"
        [("rest_days", "Back-to-Back"), ("quarter", "1st")]).rows :=
  C6_amended_commutes trivRng witC6Frame ("quarter", "1st") ("rest_days", "Back-to-Back")
    "p" "T" (by decide) (by decide) (by unfold RowLocal; decide) (by unfold RowLocal; decide)
    (by decide) (by decide)

/-! ### C3: game numbering -/

/-- Every occurrence of a game id carries the same date (the well-formedness
the numbering claims presuppose). -/
def ConsistentDates (rows : List Row) : Prop :=
  ∀ r ∈ rows, ∀ r' ∈ rows, r.game_id = r'.game_id → r.game_date = r'.game_date

/-- C3 as stated: game numbers are ordered by date with same-date ties broken
by lexical order of game id. -/
def claimC3 : Prop :=
  ∀ (f : Frame), f.cols.game_date = true → f.cols.game_id = true →
    ConsistentDates f.rows →
    ∀ r ∈ (addGameNumbers f).rows, ∀ r' ∈ (addGameNumbers f).rows,
      r.game_id ≠ r'.game_id →
      (r.game_num < r'.game_num ↔
        (dateVal r.game_date < dateVal r'.game_date
         ∨ (dateVal r.game_date = dateVal r'.game_date
            ∧ pyStrLt r.game_id r'.game_id = true)))

/-- The C3 counterexample frame: two same-date games whose ids are in
reverse lexical order of their first appearance. -/
def cexC3Frame : Frame :=
  ⟨⟨true, true, false, false, false, false, false, false, false, false, false, false, false⟩,
   [mkRow 0 "B" ⟨2021, 11, 5⟩ 1, mkRow 1 "A" ⟨2021, 11, 5⟩ 1]⟩

/-- C3 fails on the code: `_add_game_numbers` sorts the deduplicated games by
`game_date` only, and the stable sort keeps same-date games in first-seen
frame order, not lexical game-id order; here game `"B"` (seen first) gets
number 1 and `"A"` gets 2, though `"A" < "B"` lexically. -/
theorem C3_counterexample : ¬ claimC3 := by
  intro h
  have := h cexC3Frame rfl rfl (by unfold ConsistentDates; decide)
    {mkRow 1 "A" ⟨2021, 11, 5⟩ 1 with game_num := 2} (by decide)
    {mkRow 0 "B" ⟨2021, 11, 5⟩ 1 with game_num := 1} (by decide)
    (by decide)
  exact absurd this (by decide)

theorem enumFrom_length {α : Type} (n : Nat) (l : List α) :
    (enumFrom n l).length = l.length := by
  induction l generalizing n with
  | nil => rfl
  | cons x t ih => simp [enumFrom, ih]

theorem enumFrom_map_snd {α : Type} (n : Nat) (l : List α) :
    (enumFrom n l).map (·.2) = l := by
  induction l generalizing n with
  | nil => rfl
  | cons x t ih => simp [enumFrom, ih]

theorem enumFrom_get? {α : Type} (l : List α) :
    ∀ (n i : Nat), (enumFrom n l).get? i = (l.get? i).map (fun x => (n + i, x)) := by
  induction l with
  | nil => intro n i; simp [enumFrom]
  | cons x t ih =>
    intro n i
    cases i with
    | zero => simp [enumFrom]
    | succ j =>
      simp only [enumFrom, List.get?_cons_succ, ih (n + 1) j]
      cases t.get? j <;> simp <;> omega

theorem mem_enumFrom {α : Type} {p : Nat × α} {l : List α} :
    ∀ {n : Nat}, p ∈ enumFrom n l → n ≤ p.1 ∧ l.get? (p.1 - n) = some p.2 := by
  induction l with
  | nil => intro n h; simp [enumFrom] at h
  | cons x t ih =>
    intro n h
    simp only [enumFrom, List.mem_cons] at h
    rcases h with h | h
    · subst h
      simp
    · obtain ⟨h1, h2⟩ := ih h
      refine ⟨by omega, ?_⟩
      have hp : p.1 - n = (p.1 - (n + 1)) + 1 := by omega
      rw [hp, List.get?_cons_succ]
      exact h2

theorem enumFrom_pairwise_fst_lt {α : Type} (l : List α) :
    ∀ (n : Nat), (enumFrom n l).Pairwise (fun a b => a.1 < b.1) := by
  induction l with
  | nil => intro n; exact List.Pairwise.nil
  | cons x t ih =>
    intro n
    refine List.Pairwise.cons ?_ (ih (n + 1))
    intro b hb
    have := (mem_enumFrom hb).1
    simp only
    omega

theorem enumFrom_fst_nodup {α : Type} (n : Nat) (l : List α) :
    ((enumFrom n l).map (·.1)).Nodup := by
  rw [List.Nodup, List.pairwise_map]
  exact (enumFrom_pairwise_fst_lt l n).imp (fun h => by omega)

instance : IsTotal (Nat × (String × Date)) pairLe :=
  ⟨by intro a b; unfold pairLe; omega⟩

instance : IsTrans (Nat × (String × Date)) pairLe :=
  ⟨by intro a b c; unfold pairLe; omega⟩

theorem mem_of_mem_dedupAux {r : Row} {rows : List Row} :
    ∀ {seen : List String}, r ∈ dedupByGameIdAux seen rows → r ∈ rows := by
  induction rows with
  | nil => intro seen h; simp [dedupByGameIdAux] at h
  | cons x t ih =>
    intro seen h
    unfold dedupByGameIdAux at h
    by_cases hx : x.game_id ∈ seen
    · rw [if_pos hx] at h
      exact List.mem_cons_of_mem x (ih h)
    · rw [if_neg hx] at h
      rcases List.mem_cons.1 h with h | h
      · exact h ▸ List.mem_cons_self x t
      · exact List.mem_cons_of_mem x (ih h)

theorem dedupAux_ids_nodup (rows : List Row) :
    ∀ (seen : List String),
      ((dedupByGameIdAux seen rows).map (·.game_id)).Nodup
      ∧ ∀ g ∈ (dedupByGameIdAux seen rows).map (·.game_id), g ∉ seen := by
  induction rows with
  | nil => intro seen; simp [dedupByGameIdAux]
  | cons x t ih =>
    intro seen
    unfold dedupByGameIdAux
    by_cases hx : x.game_id ∈ seen
    · rw [if_pos hx]
      exact ih seen
    · rw [if_neg hx]
      obtain ⟨ihn, ihs⟩ := ih (x.game_id :: seen)
      refine ⟨List.Nodup.cons ?_ ihn, ?_⟩
      · intro hmem
        exact (ihs x.game_id hmem) (List.mem_cons_self _ _)
      · intro g hg hgs
        rcases List.mem_cons.1 hg with hg | hg
        · subst hg
          exact hx hgs
        · exact (ihs g hg) (List.mem_cons_of_mem _ hgs)

theorem dedupAux_ids_mem {r : Row} {rows : List Row} (hr : r ∈ rows) :
    ∀ (seen : List String),
      r.game_id ∈ seen ∨ r.game_id ∈ (dedupByGameIdAux seen rows).map (·.game_id) := by
  induction rows with
  | nil => exact absurd hr (List.not_mem_nil r)
  | cons x t ih =>
    intro seen
    unfold dedupByGameIdAux
    by_cases hx : x.game_id ∈ seen
    · rw [if_pos hx]
      rcases List.mem_cons.1 hr with hr | hr
      · exact Or.inl (hr ▸ hx)
      · exact ih hr seen
    · rw [if_neg hx]
      rcases List.mem_cons.1 hr with hr | hr
      · subst hr
        exact Or.inr (by simp)
      · rcases ih hr (x.game_id :: seen) with h | h
        · rcases List.mem_cons.1 h with h | h
          · exact Or.inr (by simp [h])
          · exact Or.inl h
        · exact Or.inr (by simp [h])

theorem gamePairs_fst_nodup (rows : List Row) :
    ((gamePairs rows).map (·.1)).Nodup := by
  have h : (gamePairs rows).map (·.1) = (dedupByGameId rows).map (·.game_id) := by
    simp [gamePairs, List.map_map]
  rw [h]
  exact (dedupAux_ids_nodup rows []).1

theorem gamePairs_mem_row {p : String × Date} {rows : List Row}
    (hp : p ∈ gamePairs rows) : ∃ r ∈ rows, r.game_id = p.1 ∧ r.game_date = p.2 := by
  obtain ⟨r, hr, hrp⟩ := List.mem_map.1 hp
  exact ⟨r, mem_of_mem_dedupAux hr, by rw [← hrp], by rw [← hrp]⟩

theorem mem_gamePairs_of_row {rows : List Row} (hc : ConsistentDates rows)
    {r : Row} (hr : r ∈ rows) : (r.game_id, r.game_date) ∈ gamePairs rows := by
  rcases dedupAux_ids_mem hr [] with h | h
  · exact absurd h (List.not_mem_nil _)
  · obtain ⟨r0, hr0, hid⟩ := List.mem_map.1 h
    have hr0r : r0 ∈ rows := mem_of_mem_dedupAux hr0
    have hdt : r0.game_date = r.game_date := hc r0 hr0r r hr hid
    have : (r.game_id, r.game_date) = (r0.game_id, r0.game_date) := by
      rw [hid, hdt]
    rw [this]
    exact List.mem_map.2 ⟨r0, hr0, rfl⟩

theorem alookup_enum_eq_some {m : List (String × Date)} {g : String}
    (hnd : (m.map (·.1)).Nodup) :
    ∀ {i : Nat} {x : String × Date}, m.get? i = some x → x.1 = g →
      ∀ (n : Nat),
        alookup ((enumFrom n m).map (fun p => (p.2.1, p.1 + 1))) g = some (n + i + 1) := by
  induction m with
  | nil => intro i x hget; simp at hget
  | cons y t ih =>
    intro i x hget hx n
    cases i with
    | zero =>
      rw [List.get?_cons_zero] at hget
      injection hget with hxy
      subst hxy
      simp only [enumFrom, List.map_cons, alookup, hx]
      simp
    | succ j =>
      rw [List.get?_cons_succ] at hget
      have hnd' : (t.map (·.1)).Nodup := (List.nodup_cons.1 hnd).2
      have hyg : y.1 ≠ g := by
        intro hcon
        have hxm : x ∈ t := List.get?_mem hget
        have : x.1 ∈ t.map (·.1) := List.mem_map.2 ⟨x, hxm, rfl⟩
        rw [hx, ← hcon] at this
        exact (List.nodup_cons.1 hnd).1 this
      simp only [enumFrom, List.map_cons, alookup, if_neg hyg]
      have := ih hnd' hget hx (n + 1)
      rw [this]
      congr 1
      omega

theorem alookup_enum_some_inv {m : List (String × Date)} {g : String} :
    ∀ {n k : Nat},
      alookup ((enumFrom n m).map (fun p => (p.2.1, p.1 + 1))) g = some k →
      ∃ i x, m.get? i = some x ∧ x.1 = g ∧ k = n + i + 1 := by
  induction m with
  | nil => intro n k h; simp [enumFrom, alookup] at h
  | cons y t ih =>
    intro n k h
    simp only [enumFrom, List.map_cons, alookup] at h
    by_cases hy : y.1 = g
    · rw [if_pos hy] at h
      injection h with hk
      exact ⟨0, y, rfl, hy, by omega⟩
    · rw [if_neg hy] at h
      obtain ⟨i, x, hget, hx, hk⟩ := ih h
      exact ⟨i + 1, x, by rw [List.get?_cons_succ]; exact hget, hx, by omega⟩

theorem uniqueGamesSorted_perm (rows : List Row) :
    List.Perm (uniqueGamesSorted rows) (gamePairs rows) := by
  unfold uniqueGamesSorted sortPairsByDate
  have h1 : List.Perm ((List.insertionSort pairLe (enumFrom 0 (gamePairs rows))).map (·.2))
      ((enumFrom 0 (gamePairs rows)).map (·.2)) :=
    (List.perm_insertionSort pairLe (enumFrom 0 (gamePairs rows))).map (·.2)
  rw [enumFrom_map_snd] at h1
  exact h1

theorem uniqueGamesSorted_fst_nodup (rows : List Row) :
    ((uniqueGamesSorted rows).map (·.1)).Nodup :=
  (((uniqueGamesSorted_perm rows).map (·.1)).symm).nodup (gamePairs_fst_nodup rows)

theorem numOf_of_get? {rows : List Row} {g : String} {i : Nat} {x : String × Date}
    (hget : (uniqueGamesSorted rows).get? i = some x) (hx : x.1 = g) :
    numOf rows g = i + 1 := by
  unfold numOf gameNumMap
  rw [alookup_enum_eq_some (uniqueGamesSorted_fst_nodup rows) hget hx 0]
  simp

theorem numOf_mem_of_id {rows : List Row} {g : String}
    (hg : g ∈ (gamePairs rows).map (·.1)) :
    ∃ i x, (uniqueGamesSorted rows).get? i = some x ∧ x.1 = g ∧ numOf rows g = i + 1 := by
  obtain ⟨p, hp, hpg⟩ := List.mem_map.1 hg
  have hps : p ∈ uniqueGamesSorted rows := (uniqueGamesSorted_perm rows).mem_iff.2 hp
  obtain ⟨a, ha⟩ := List.mem_iff_get.1 hps
  have hget : (uniqueGamesSorted rows).get? a = some p := by
    rw [List.get?_eq_get a.2, ha]
  exact ⟨a, p, hget, hpg, numOf_of_get? hget hpg⟩

/-- The sorted enumerated pair list underlying `uniqueGamesSorted`. -/
def sortedEnum (rows : List Row) : List (Nat × (String × Date)) :=
  List.insertionSort pairLe (enumFrom 0 (gamePairs rows))

theorem uniqueGamesSorted_eq_map (rows : List Row) :
    uniqueGamesSorted rows = (sortedEnum rows).map (·.2) := rfl

theorem sortedEnum_perm (rows : List Row) :
    List.Perm (sortedEnum rows) (enumFrom 0 (gamePairs rows)) :=
  List.perm_insertionSort pairLe (enumFrom 0 (gamePairs rows))

theorem sortedEnum_fst_nodup (rows : List Row) :
    ((sortedEnum rows).map (·.1)).Nodup :=
  (((sortedEnum_perm rows).map (·.1)).symm).nodup (enumFrom_fst_nodup 0 (gamePairs rows))

theorem sortedEnum_strict {rows : List Row} {a b : Nat} {xa xb : Nat × (String × Date)}
    (ha : (sortedEnum rows).get? a = some xa) (hb : (sortedEnum rows).get? b = some xb)
    (hab : a < b) :
    dateVal xa.2.2 < dateVal xb.2.2 ∨ (dateVal xa.2.2 = dateVal xb.2.2 ∧ xa.1 < xb.1) := by
  obtain ⟨hla, hga⟩ := List.get?_eq_some.1 ha
  obtain ⟨hlb, hgb⟩ := List.get?_eq_some.1 hb
  have hle : pairLe xa xb := by
    have hpw : (sortedEnum rows).Pairwise pairLe :=
      List.sorted_insertionSort pairLe (enumFrom 0 (gamePairs rows))
    have := List.pairwise_iff_get.1 hpw ⟨a, hla⟩ ⟨b, hlb⟩ hab
    rw [hga, hgb] at this
    exact this
  have hne : xa.1 ≠ xb.1 := by
    have hnd := sortedEnum_fst_nodup rows
    rw [List.Nodup, List.pairwise_map] at hnd
    have := List.pairwise_iff_get.1 hnd ⟨a, hla⟩ ⟨b, hlb⟩ hab
    rw [hga, hgb] at this
    exact this
  unfold pairLe at hle
  omega

theorem sorted_get?_of_enum {rows : List Row} {a : Nat} {x : Nat × (String × Date)}
    (h : (sortedEnum rows).get? a = some x) :
    (uniqueGamesSorted rows).get? a = some x.2 := by
  rw [uniqueGamesSorted_eq_map, List.get?_map, h, Option.map_some']

theorem numOf_exists_of_row {rows : List Row} {r : Row} (hr : r ∈ rows) :
    ∃ a x, (uniqueGamesSorted rows).get? a = some x ∧ x.1 = r.game_id
      ∧ numOf rows r.game_id = a + 1 := by
  have hmap : (gamePairs rows).map (·.1) = (dedupByGameId rows).map (·.game_id) := by
    simp [gamePairs, List.map_map]
  rcases dedupAux_ids_mem hr [] with h | h
  · exact absurd h (List.not_mem_nil _)
  · exact numOf_mem_of_id (by rw [hmap]; exact h)

theorem numOf_exists_of_row_dated {rows : List Row} (hc : ConsistentDates rows)
    {r : Row} (hr : r ∈ rows) :
    ∃ a, (uniqueGamesSorted rows).get? a = some (r.game_id, r.game_date)
      ∧ numOf rows r.game_id = a + 1 := by
  have hp : (r.game_id, r.game_date) ∈ uniqueGamesSorted rows :=
    (uniqueGamesSorted_perm rows).mem_iff.2 (mem_gamePairs_of_row hc hr)
  obtain ⟨a, ha⟩ := List.mem_iff_get.1 hp
  have hget : (uniqueGamesSorted rows).get? a = some (r.game_id, r.game_date) := by
    rw [List.get?_eq_get a.2, ha]
  exact ⟨a, hget, numOf_of_get? hget rfl⟩

/-- The per-arrangement game numbering: the position (from 1) of a game id in
an arrangement `u` of the distinct `(game_id, game_date)` pairs, via the
`dict(zip(game_id, range(1, len + 1)))` construction. With
`u := uniqueGamesSorted rows` this is exactly the code's `numOf`. -/
def numOfIn (u : List (String × Date)) (g : String) : Nat :=
  (alookup ((enumFrom 0 u).map (fun p => (p.2.1, p.1 + 1))) g).getD 0

/-- A date-ascending arrangement: what `sort_values('game_date')` guarantees
of its output regardless of sort kind. -/
def DateSorted (u : List (String × Date)) : Prop :=
  u.Pairwise (fun a b => dateVal a.2 ≤ dateVal b.2)

theorem numOfIn_of_get? {u : List (String × Date)} {g : String} {i : Nat} {x : String × Date}
    (hnd : (u.map (·.1)).Nodup) (hget : u.get? i = some x) (hx : x.1 = g) :
    numOfIn u g = i + 1 := by
  unfold numOfIn
  rw [alookup_enum_eq_some hnd hget hx 0]
  simp

theorem perm_fst_nodup {u : List (String × Date)} {rows : List Row}
    (hperm : List.Perm u (gamePairs rows)) : (u.map (·.1)).Nodup :=
  ((hperm.map (·.1)).symm).nodup (gamePairs_fst_nodup rows)

theorem numOfIn_exists_of_row {u : List (String × Date)} {rows : List Row}
    (hperm : List.Perm u (gamePairs rows)) {r : Row} (hr : r ∈ rows) :
    ∃ a x, u.get? a = some x ∧ x.1 = r.game_id ∧ numOfIn u r.game_id = a + 1 := by
  have hmap : (gamePairs rows).map (·.1) = (dedupByGameId rows).map (·.game_id) := by
    simp [gamePairs, List.map_map]
  rcases dedupAux_ids_mem hr [] with h | h
  · exact absurd h (List.not_mem_nil _)
  · have hg : r.game_id ∈ (gamePairs rows).map (·.1) := by
      rw [hmap]
      exact h
    obtain ⟨p, hp, hpg⟩ := List.mem_map.1 hg
    have hpu : p ∈ u := hperm.mem_iff.2 hp
    obtain ⟨a, ha⟩ := List.mem_iff_get.1 hpu
    have hget : u.get? a = some p := by
      rw [List.get?_eq_get a.2, ha]
    exact ⟨a, p, hget, hpg, numOfIn_of_get? (perm_fst_nodup hperm) hget hpg⟩

theorem numOfIn_exists_of_row_dated {u : List (String × Date)} {rows : List Row}
    (hperm : List.Perm u (gamePairs rows)) (hc : ConsistentDates rows)
    {r : Row} (hr : r ∈ rows) :
    ∃ a, u.get? a = some (r.game_id, r.game_date) ∧ numOfIn u r.game_id = a + 1 := by
  have hp : (r.game_id, r.game_date) ∈ u := hperm.mem_iff.2 (mem_gamePairs_of_row hc hr)
  obtain ⟨a, ha⟩ := List.mem_iff_get.1 hp
  have hget : u.get? a = some (r.game_id, r.game_date) := by
    rw [List.get?_eq_get a.2, ha]
  exact ⟨a, hget, numOfIn_of_get? (perm_fst_nodup hperm) hget rfl⟩

theorem dateSorted_get_le {u : List (String × Date)} (hs : DateSorted u)
    {a b : Nat} {xa xb : String × Date} (ha : u.get? a = some xa)
    (hb : u.get? b = some xb) (hab : a < b) : dateVal xa.2 ≤ dateVal xb.2 := by
  obtain ⟨hla, hga⟩ := List.get?_eq_some.1 ha
  obtain ⟨hlb, hgb⟩ := List.get?_eq_some.1 hb
  have := List.pairwise_iff_get.1 hs ⟨a, hla⟩ ⟨b, hlb⟩ hab
  rw [hga, hgb] at this
  exact this

theorem uniqueGamesSorted_dateSorted (rows : List Row) :
    DateSorted (uniqueGamesSorted rows) := by
  unfold DateSorted
  rw [uniqueGamesSorted_eq_map, List.pairwise_map]
  exact List.Pairwise.imp (fun h => by unfold pairLe at h; omega)
    (List.sorted_insertionSort pairLe (enumFrom 0 (gamePairs rows)))

/-- C3 (amended): with game-id and game-date columns and consistent dates,
the code writes into `game_num` the rank of the row's game in one
date-ascending arrangement of the distinct games; and for EVERY
date-ascending arrangement (the default `sort_values` quicksort kind fixes no
order among equal dates) the ranks are the sequential integers 1..N with no
gaps or duplicates and strictly increase with game date. No same-date tie
order - lexical or otherwise - is guaranteed. -/
theorem C3_amended_game_numbers (f : Frame) (hd : f.cols.game_date = true)
    (hg : f.cols.game_id = true) (hc : ConsistentDates f.rows) :
    (List.Perm (uniqueGamesSorted f.rows) (gamePairs f.rows)
      ∧ DateSorted (uniqueGamesSorted f.rows)
      ∧ (addGameNumbers f).rows = f.rows.map (fun r =>
          {r with game_num := numOfIn (uniqueGamesSorted f.rows) r.game_id}))
    ∧ (∀ u, List.Perm u (gamePairs f.rows) → DateSorted u →
        (∀ r ∈ f.rows, 1 ≤ numOfIn u r.game_id
          ∧ numOfIn u r.game_id ≤ (gamePairs f.rows).length)
        ∧ (∀ n, 1 ≤ n → n ≤ (gamePairs f.rows).length →
            ∃ r ∈ f.rows, numOfIn u r.game_id = n)
        ∧ (∀ r ∈ f.rows, ∀ r' ∈ f.rows,
            numOfIn u r.game_id = numOfIn u r'.game_id → r.game_id = r'.game_id)
        ∧ (∀ r ∈ f.rows, ∀ r' ∈ f.rows,
            dateVal r.game_date < dateVal r'.game_date →
              numOfIn u r.game_id < numOfIn u r'.game_id)) := by
  refine ⟨⟨uniqueGamesSorted_perm f.rows, uniqueGamesSorted_dateSorted f.rows, ?_⟩, ?_⟩
  · simp [addGameNumbers, hd, hg, numOfIn, gameNumMap]
  · intro u hperm hsort
    have hlen : u.length = (gamePairs f.rows).length := hperm.length_eq
    refine ⟨?_, ?_, ?_, ?_⟩
    · intro r hr
      obtain ⟨a, x, hget, hx, hnum⟩ := numOfIn_exists_of_row hperm hr
      have ha : a < u.length := (List.get?_eq_some.1 hget).1
      rw [hnum]
      omega
    · intro n h1 hN
      have hn : n - 1 < u.length := by omega
      have hget : u.get? (n - 1) = some (u.get ⟨n - 1, hn⟩) := List.get?_eq_get hn
      obtain ⟨r, hrrows, hrid, _⟩ := gamePairs_mem_row
        (hperm.mem_iff.1 (List.get_mem _ _ _))
      refine ⟨r, hrrows, ?_⟩
      have := numOfIn_of_get? (perm_fst_nodup hperm) hget hrid.symm
      rw [this]
      omega
    · intro r hr r' hr' heq
      obtain ⟨a, x, hga, hxa, hna⟩ := numOfIn_exists_of_row hperm hr
      obtain ⟨b, y, hgb, hxb, hnb⟩ := numOfIn_exists_of_row hperm hr'
      have hab : a = b := by omega
      subst hab
      rw [hga] at hgb
      injection hgb with hxy
      rw [← hxa, ← hxb, hxy]
    · intro r hr r' hr' hdate
      obtain ⟨a, hga, hna⟩ := numOfIn_exists_of_row_dated hperm hc hr
      obtain ⟨b, hgb, hnb⟩ := numOfIn_exists_of_row_dated hperm hc hr'
      have hab : a < b := by
        rcases Nat.lt_trichotomy a b with h | h | h
        · exact h
        · subst h
          rw [hga] at hgb
          injection hgb with hpq
          injection hpq with h1 h2
          rw [h2] at hdate
          omega
        · have h3 := dateSorted_get_le hsort hgb hga h
          simp only at h3
          omega
      omega

/-- C3 (amended) at a concrete frame: the numbering facts hold on the
two-game frame. -/
theorem C3_amended_game_numbers_witness :
    (List.Perm (uniqueGamesSorted cexC3Frame.rows) (gamePairs cexC3Frame.rows)
      ∧ DateSorted (uniqueGamesSorted cexC3Frame.rows)
      ∧ (addGameNumbers cexC3Frame).rows = cexC3Frame.rows.map (fun r =>
          {r with game_num := numOfIn (uniqueGamesSorted cexC3Frame.rows) r.game_id}))
    ∧ (∀ u, List.Perm u (gamePairs cexC3Frame.rows) → DateSorted u →
        (∀ r ∈ cexC3Frame.rows, 1 ≤ numOfIn u r.game_id
          ∧ numOfIn u r.game_id ≤ (gamePairs cexC3Frame.rows).length)
        ∧ (∀ n, 1 ≤ n → n ≤ (gamePairs cexC3Frame.rows).length →
            ∃ r ∈ cexC3Frame.rows, numOfIn u r.game_id = n)
        ∧ (∀ r ∈ cexC3Frame.rows, ∀ r' ∈ cexC3Frame.rows,
            numOfIn u r.game_id = numOfIn u r'.game_id → r.game_id = r'.game_id)
        ∧ (∀ r ∈ cexC3Frame.rows, ∀ r' ∈ cexC3Frame.rows,
            dateVal r.game_date < dateVal r'.game_date →
              numOfIn u r.game_id < numOfIn u r'.game_id)) :=
  C3_amended_game_numbers cexC3Frame rfl rfl (by unfold ConsistentDates; decide)


/-! ### C4: rest days -/

theorem restWalk_map_fst : ∀ (prev : Option Date) (l : List (String × Date)),
    (restWalk prev l).map (·.1) = l.map (·.1) := by
  intro prev l
  induction l generalizing prev with
  | nil => rfl
  | cons x t ih =>
    obtain ⟨g, d⟩ := x
    simp [restWalk, ih]

theorem alookup_of_get? {κ α : Type} [DecidableEq κ] :
    ∀ {w : List (κ × α)} {i : Nat} {g : κ} {v : α},
      (w.map (·.1)).Nodup → w.get? i = some (g, v) → alookup w g = some v := by
  intro w
  induction w with
  | nil => intro i g v _ h; simp at h
  | cons y t ih =>
    intro i g v hnd h
    cases i with
    | zero =>
      rw [List.get?_cons_zero] at h
      injection h with hy
      subst hy
      simp [alookup]
    | succ j =>
      rw [List.get?_cons_succ] at h
      have hne : y.1 ≠ g := by
        intro hcon
        have : (g, v) ∈ t := List.get?_mem h
        have : g ∈ t.map (·.1) := List.mem_map.2 ⟨(g, v), this, rfl⟩
        rw [← hcon] at this
        exact (List.nodup_cons.1 hnd).1 this
      obtain ⟨k, w⟩ := y
      simp only [alookup, if_neg hne]
      exact ih (List.nodup_cons.1 hnd).2 h

theorem restWalk_get_zero (prev : Option Date) {l : List (String × Date)}
    {x : String × Date} (h : l.get? 0 = some x) :
    (restWalk prev l).get? 0
      = some (x.1, max 0 ((prev.map
          (fun p => (dayNumber x.2 : Int) - dayNumber p - 1)).getD 0)) := by
  cases l with
  | nil => simp at h
  | cons y t =>
    obtain ⟨g, d⟩ := y
    rw [List.get?_cons_zero] at h
    injection h with hy
    subst hy
    rfl

theorem restWalk_get_succ :
    ∀ (prev : Option Date) (l : List (String × Date)) (i : Nat)
      (xp xc : String × Date), l.get? i = some xp → l.get? (i + 1) = some xc →
      (restWalk prev l).get? (i + 1)
        = some (xc.1, max 0 ((dayNumber xc.2 : Int) - dayNumber xp.2 - 1)) := by
  intro prev l
  induction l generalizing prev with
  | nil => intro i xp xc h; simp at h
  | cons y t ih =>
    intro i xp xc hp hc
    obtain ⟨g, d⟩ := y
    cases i with
    | zero =>
      rw [List.get?_cons_zero] at hp
      injection hp with hy
      subst hy
      rw [List.get?_cons_succ] at hc
      show (restWalk (some d) t).get? 0 = _
      rw [restWalk_get_zero (some d) hc]
      rfl
    | succ j =>
      rw [List.get?_cons_succ] at hp hc
      show (restWalk (some d) t).get? (j + 1) = _
      exact ih (some d) j xp xc hp hc

theorem restMap_fst_nodup (rows : List Row) :
    ((restMap rows).map (·.1)).Nodup := by
  unfold restMap
  rw [restWalk_map_fst]
  exact uniqueGamesSorted_fst_nodup rows

/-- C4: with game-id and game-date columns and consistent dates,
`_add_rest_days` broadcasts one per-game value keyed on game id (so all shots
of a game agree); the game ranked first gets `rest_days = 0` (the shifted
previous date is missing, `fillna(0)`), and a game ranked `i + 2` gets
`max 0 (days between it and the game ranked i + 1, minus 1)` (the
`clip(lower=0)` of the day gap). -/
theorem C4_rest_days (f : Frame) (hd : f.cols.game_date = true)
    (hg : f.cols.game_id = true) (hc : ConsistentDates f.rows) :
    ((addRestDays f).rows = f.rows.map (fun r =>
        {r with rest_days := (alookup (restMap f.rows) r.game_id).getD 0}))
    ∧ (∀ r ∈ (addRestDays f).rows, ∀ r' ∈ (addRestDays f).rows,
        r.game_id = r'.game_id → r.rest_days = r'.rest_days)
    ∧ (∀ r ∈ f.rows, numOf f.rows r.game_id = 1 →
        (alookup (restMap f.rows) r.game_id).getD 0 = 0)
    ∧ (∀ r ∈ f.rows, ∀ i xp, numOf f.rows r.game_id = i + 2 →
        (uniqueGamesSorted f.rows).get? i = some xp →
        (alookup (restMap f.rows) r.game_id).getD 0
          = max 0 ((dayNumber r.game_date : Int) - dayNumber xp.2 - 1)) := by
  have hrows : (addRestDays f).rows = f.rows.map (fun r =>
      {r with rest_days := (alookup (restMap f.rows) r.game_id).getD 0}) := by
    simp [addRestDays, hd, hg]
  refine ⟨hrows, ?_, ?_, ?_⟩
  · intro r hr r' hr' hid
    rw [hrows] at hr hr'
    obtain ⟨r0, _, hr0⟩ := List.mem_map.1 hr
    obtain ⟨r0', _, hr0'⟩ := List.mem_map.1 hr'
    subst hr0
    subst hr0'
    simp only at hid ⊢
    rw [hid]
  · intro r hr hnum
    obtain ⟨a, hga, hna⟩ := numOf_exists_of_row_dated hc hr
    have ha0 : a = 0 := by omega
    subst ha0
    have := restWalk_get_zero none hga
    have hlk : alookup (restMap f.rows) r.game_id = some 0 := by
      have h0 : (restMap f.rows).get? 0 = some (r.game_id, 0) := by
        unfold restMap
        rw [restWalk_get_zero none hga]
        rfl
      exact alookup_of_get? (restMap_fst_nodup f.rows) h0
    rw [hlk]
    rfl
  · intro r hr i xp hnum hxp
    obtain ⟨a, hga, hna⟩ := numOf_exists_of_row_dated hc hr
    have hai : a = i + 1 := by omega
    subst hai
    have hlk : alookup (restMap f.rows) r.game_id
        = some (max 0 ((dayNumber r.game_date : Int) - dayNumber xp.2 - 1)) := by
      have hstep : (restMap f.rows).get? (i + 1)
          = some (r.game_id, max 0 ((dayNumber r.game_date : Int) - dayNumber xp.2 - 1)) :=
        restWalk_get_succ none (uniqueGamesSorted f.rows) i xp (r.game_id, r.game_date) hxp hga
      exact alookup_of_get? (restMap_fst_nodup f.rows) hstep
    rw [hlk]
    rfl

/-- The C4 witness frame: two games three days apart. -/
def witC4Frame : Frame :=
  ⟨⟨true, true, false, false, false, false, false, false, false, false, false, false, false⟩,
   [mkRow 0 "g1" ⟨2021, 11, 5⟩ 1, mkRow 1 "g2" ⟨2021, 11, 8⟩ 1]⟩

/-- C4 at a concrete frame: the rest-day facts hold on the two-game frame. -/
theorem C4_rest_days_witness :
    ((addRestDays witC4Frame).rows = witC4Frame.rows.map (fun r =>
        {r with rest_days := (alookup (restMap witC4Frame.rows) r.game_id).getD 0}))
    ∧ (∀ r ∈ (addRestDays witC4Frame).rows, ∀ r' ∈ (addRestDays witC4Frame).rows,
        r.game_id = r'.game_id → r.rest_days = r'.rest_days)
    ∧ (∀ r ∈ witC4Frame.rows, numOf witC4Frame.rows r.game_id = 1 →
        (alookup (restMap witC4Frame.rows) r.game_id).getD 0 = 0)
    ∧ (∀ r ∈ witC4Frame.rows, ∀ i xp, numOf witC4Frame.rows r.game_id = i + 2 →
        (uniqueGamesSorted witC4Frame.rows).get? i = some xp →
        (alookup (restMap witC4Frame.rows) r.game_id).getD 0
          = max 0 ((dayNumber r.game_date : Int) - dayNumber xp.2 - 1)) :=
  C4_rest_days witC4Frame rfl rfl (by unfold ConsistentDates; decide)

/-! ### C9: `ShotZoneCalculator.calculate_zones` -/

/-- The analyzer's shot rows: the five candidate zone columns and the made
flag. -/
structure ZRow where
  shot_zone_basic : String
  shot_zone_area : String
  shot_zone_range : String
  action_type : String
  shot_type : String
  shot_made_flag : Nat
deriving DecidableEq, Repr

/-- Presence of the five candidate zone columns. -/
structure ZCols where
  shot_zone_basic : Bool
  shot_zone_area : Bool
  shot_zone_range : Bool
  action_type : Bool
  shot_type : Bool
deriving DecidableEq, Repr

/-- The analyzer's frame. -/
structure ZFrame where
  cols : ZCols
  rows : List ZRow
deriving DecidableEq, Repr

/-- The five candidate zone columns, as an enumeration. -/
inductive ZCol where
  | basic
  | area
  | zrange
  | action
  | stype
deriving DecidableEq, Repr

/-- Reading a candidate column from a row. -/
def zfield : ZCol → ZRow → String
  | .basic, r => r.shot_zone_basic
  | .area, r => r.shot_zone_area
  | .zrange, r => r.shot_zone_range
  | .action, r => r.action_type
  | .stype, r => r.shot_type

/-- Presence test of a candidate column. -/
def zhas : ZCol → ZCols → Bool
  | .basic, c => c.shot_zone_basic
  | .area, c => c.shot_zone_area
  | .zrange, c => c.shot_zone_range
  | .action, c => c.action_type
  | .stype, c => c.shot_type

/-- The fixed candidate priority of `_find_best_zone_column`. -/
def zoneCandidates : List ZCol := [.basic, .area, .zrange, .action, .stype]

/-- `_find_best_zone_column`: the first present candidate column with more
than one distinct value. -/
def findBestZoneColumn (f : ZFrame) : Option ZCol :=
  zoneCandidates.find? (fun c => zhas c f.cols
    && decide (1 < (pyUnique (f.rows.map (zfield c))).length))

/-- numpy rounding to the nearest integer, ties to even (`Series.round`). -/
def rhe (q : ℚ) : Int :=
  if q - Int.floor q < 1 / 2 then Int.floor q
  else if 1 / 2 < q - Int.floor q then Int.floor q + 1
  else if Int.floor q % 2 = 0 then Int.floor q else Int.floor q + 1

/-- `.round(1)`: round to one decimal place. -/
def round1 (q : ℚ) : ℚ := (rhe (q * 10) : ℚ) / 10

/-- The Backcourt exclusion step of `calculate_zones`. -/
def backcourtFiltered (rows : List ZRow) (c : ZCol) : List ZRow :=
  if (rows.map (zfield c)).contains "Backcourt"
  then rows.filter (fun r => !(zfield c r == "Backcourt"))
  else rows

/-- One aggregated row of the `groupby(zone).agg(count, sum)` table with its
percentage: `(zone, attempted, made, percentage)`. -/
def zoneEntry (rows : List ZRow) (c : ZCol) (z : String) : String × Nat × Nat × ℚ :=
  (z, (rows.filter (fun r => zfield c r == z)).length,
   ((rows.filter (fun r => zfield c r == z)).map (·.shot_made_flag)).sum,
   round1 ((((((rows.filter (fun r => zfield c r == z)).map
         (·.shot_made_flag)).sum : Nat) : ℚ)
     / ((((rows.filter (fun r => zfield c r == z)).length : Nat) : ℚ))) * 100))

/-- `calculate_zones`: empty input or no suitable column give an empty map;
otherwise the Backcourt-filtered rows are grouped by the chosen column (group
keys in pandas sorted order). -/
def calculateZones (f : ZFrame) : List (String × Nat × Nat × ℚ) :=
  if f.rows.isEmpty then []
  else
    match findBestZoneColumn f with
    | none => []
    | some c =>
      (List.insertionSort pyStrLe
        (pyUnique ((backcourtFiltered f.rows c).map (zfield c)))).map
        (zoneEntry (backcourtFiltered f.rows c) c)

theorem mem_pyUniqueAux {α : Type} [DecidableEq α] {x : α} :
    ∀ {l seen : List α}, (x ∈ pyUniqueAux seen l ↔ (x ∈ l ∧ x ∉ seen)) := by
  intro l
  induction l with
  | nil => intro seen; simp [pyUniqueAux]
  | cons y t ih =>
    intro seen
    unfold pyUniqueAux
    by_cases hy : y ∈ seen
    · rw [if_pos hy, ih]
      constructor
      · rintro ⟨h1, h2⟩
        exact ⟨List.mem_cons_of_mem y h1, h2⟩
      · rintro ⟨h1, h2⟩
        rcases List.mem_cons.1 h1 with h1 | h1
        · exact absurd (h1 ▸ hy) h2
        · exact ⟨h1, h2⟩
    · rw [if_neg hy]
      constructor
      · intro h
        rcases List.mem_cons.1 h with h | h
        · exact ⟨h ▸ List.mem_cons_self y t, h ▸ hy⟩
        · obtain ⟨h1, h2⟩ := ih.1 h
          exact ⟨List.mem_cons_of_mem y h1, fun hc => h2 (List.mem_cons_of_mem y hc)⟩
      · rintro ⟨h1, h2⟩
        rcases List.mem_cons.1 h1 with h1 | h1
        · exact h1 ▸ List.mem_cons_self y _
        · by_cases hxy : x = y
          · exact hxy ▸ List.mem_cons_self y _
          · exact List.mem_cons_of_mem y (ih.2 ⟨h1, by simp [hxy, h2]⟩)

theorem mem_pyUnique {α : Type} [DecidableEq α] {x : α} {l : List α} :
    x ∈ pyUnique l ↔ x ∈ l := by
  unfold pyUnique
  rw [mem_pyUniqueAux]
  simp

theorem sum_le_length_of_le_one {g : ZRow → Nat} :
    ∀ {l : List ZRow}, (∀ x ∈ l, g x ≤ 1) → (l.map g).sum ≤ l.length := by
  intro l
  induction l with
  | nil => intro h; simp
  | cons y t ih =>
    intro h
    simp only [List.map_cons, List.sum_cons, List.length_cons]
    have h1 := h y (List.mem_cons_self y t)
    have h2 := ih (fun x hx => h x (List.mem_cons_of_mem y hx))
    omega

theorem rhe_bounds (q : ℚ) : q - 1 / 2 ≤ (rhe q : ℚ) ∧ (rhe q : ℚ) ≤ q + 1 / 2 := by
  have hfl : (Int.floor q : ℚ) ≤ q := Int.floor_le q
  have hfl' : q < (Int.floor q : ℚ) + 1 := Int.lt_floor_add_one q
  unfold rhe
  split_ifs with h1 h2 h3
  · constructor <;> [linarith; linarith]
  · push_cast
    constructor <;> [linarith; linarith]
  · have h4 : q - (Int.floor q : ℚ) = 1 / 2 := by linarith
    constructor <;> [linarith; linarith]
  · have h4 : q - (Int.floor q : ℚ) = 1 / 2 := by linarith
    push_cast
    constructor <;> [linarith; linarith]

theorem round1_bounds {q : ℚ} (h0 : 0 ≤ q) (h100 : q ≤ 100) :
    0 ≤ round1 q ∧ round1 q ≤ 100 := by
  obtain ⟨hl, hr⟩ := rhe_bounds (q * 10)
  have hz : 0 ≤ rhe (q * 10) := by
    by_contra hc
    push_neg at hc
    have : rhe (q * 10) ≤ -1 := by omega
    have : (rhe (q * 10) : ℚ) ≤ -1 := by exact_mod_cast this
    linarith
  have hk : rhe (q * 10) ≤ 1000 := by
    by_contra hc
    push_neg at hc
    have : (1001 : Int) ≤ rhe (q * 10) := by omega
    have : (1001 : ℚ) ≤ (rhe (q * 10) : ℚ) := by exact_mod_cast this
    linarith
  have hz' : (0 : ℚ) ≤ (rhe (q * 10) : ℚ) := by exact_mod_cast hz
  have hk' : (rhe (q * 10) : ℚ) ≤ 1000 := by exact_mod_cast hk
  unfold round1
  constructor <;> [positivity; linarith]

theorem calculateZones_some_eq {f : ZFrame} {c : ZCol} (hemp : f.rows.isEmpty = false)
    (hfc : findBestZoneColumn f = some c) :
    calculateZones f
      = (List.insertionSort pyStrLe
          (pyUnique ((backcourtFiltered f.rows c).map (zfield c)))).map
          (zoneEntry (backcourtFiltered f.rows c) c) := by
  unfold calculateZones
  rw [if_neg (by simp [hemp]), hfc]

theorem calculateZones_none_eq {f : ZFrame} (hfc : findBestZoneColumn f = none) :
    calculateZones f = [] := by
  unfold calculateZones
  by_cases hemp : f.rows.isEmpty = true
  · rw [if_pos hemp]
  · rw [if_neg hemp, hfc]

theorem mem_of_mem_backcourtFiltered {rows : List ZRow} {c : ZCol} {r : ZRow}
    (h : r ∈ backcourtFiltered rows c) : r ∈ rows := by
  unfold backcourtFiltered at h
  split at h
  · exact List.mem_filter.1 h |>.1
  · exact h

theorem backcourt_not_mem_filtered (rows : List ZRow) (c : ZCol) :
    "Backcourt" ∉ (backcourtFiltered rows c).map (zfield c) := by
  unfold backcourtFiltered
  split
  · intro hmem
    obtain ⟨r, hr, hrz⟩ := List.mem_map.1 hmem
    have := (List.mem_filter.1 hr).2
    rw [hrz] at this
    simp at this
  · intro hmem
    rename_i hcon
    exact hcon (List.elem_eq_true_of_mem hmem)

/-- C9: `calculate_zones` returns an empty map on an empty frame or when no
candidate zone column has more than one distinct value; otherwise no entry is
keyed `"Backcourt"`, and every entry's attempted count is the positive size of
its zone group, its made count is the group's made-flag sum (at most
attempted when flags are 0/1), and its percentage is made/attempted×100
rounded to one decimal, hence between 0 and 100. -/
theorem C9_zone_stats (f : ZFrame) (hflag : ∀ r ∈ f.rows, r.shot_made_flag ≤ 1) :
    (f.rows.isEmpty = true → calculateZones f = [])
    ∧ (findBestZoneColumn f = none → calculateZones f = [])
    ∧ (∀ e ∈ calculateZones f, e.1 ≠ "Backcourt")
    ∧ (∀ e ∈ calculateZones f, ∀ c, findBestZoneColumn f = some c →
        e.2.1 = ((backcourtFiltered f.rows c).filter (fun r => zfield c r == e.1)).length
        ∧ e.2.2.1 = (((backcourtFiltered f.rows c).filter
            (fun r => zfield c r == e.1)).map (·.shot_made_flag)).sum
        ∧ 0 < e.2.1
        ∧ e.2.2.1 ≤ e.2.1
        ∧ e.2.2.2 = round1 (((e.2.2.1 : ℚ) / (e.2.1 : ℚ)) * 100)
        ∧ 0 ≤ e.2.2.2 ∧ e.2.2.2 ≤ 100) := by
  refine ⟨?_, calculateZones_none_eq, ?_, ?_⟩
  · intro h
    unfold calculateZones
    rw [if_pos h]
  · intro e he
    by_cases hemp : f.rows.isEmpty = true
    · unfold calculateZones at he
      rw [if_pos hemp] at he
      exact absurd he (List.not_mem_nil e)
    · cases hfc : findBestZoneColumn f with
      | none =>
        rw [calculateZones_none_eq hfc] at he
        exact absurd he (List.not_mem_nil e)
      | some c =>
        rw [calculateZones_some_eq (by simpa using hemp) hfc] at he
        obtain ⟨z, hz, hez⟩ := List.mem_map.1 he
        subst hez
        have hzm : z ∈ (backcourtFiltered f.rows c).map (zfield c) :=
          mem_pyUnique.1 ((List.perm_insertionSort pyStrLe _).mem_iff.1 hz)
        intro hcon
        have hzb : z = "Backcourt" := hcon
        exact backcourt_not_mem_filtered f.rows c (hzb ▸ hzm)
  · intro e he c hfc
    by_cases hemp : f.rows.isEmpty = true
    · unfold calculateZones at he
      rw [if_pos hemp] at he
      exact absurd he (List.not_mem_nil e)
    · rw [calculateZones_some_eq (by simpa using hemp) hfc] at he
      obtain ⟨z, hz, hez⟩ := List.mem_map.1 he
      subst hez
      have hzm : z ∈ (backcourtFiltered f.rows c).map (zfield c) :=
        mem_pyUnique.1 ((List.perm_insertionSort pyStrLe _).mem_iff.1 hz)
      obtain ⟨r, hr, hrz⟩ := List.mem_map.1 hzm
      have hrf : r ∈ (backcourtFiltered f.rows c).filter (fun r => zfield c r == z) :=
        List.mem_filter.2 ⟨hr, by simp [hrz]⟩
      have hpos : 0 < ((backcourtFiltered f.rows c).filter
          (fun r => zfield c r == z)).length := List.length_pos_of_mem hrf
      have hle : (((backcourtFiltered f.rows c).filter
            (fun r => zfield c r == z)).map (·.shot_made_flag)).sum
          ≤ ((backcourtFiltered f.rows c).filter (fun r => zfield c r == z)).length :=
        sum_le_length_of_le_one (fun x hx =>
          hflag x (mem_of_mem_backcourtFiltered (List.mem_filter.1 hx).1))
      refine ⟨rfl, rfl, hpos, hle, by rfl, ?_⟩
      have h0 : (0 : ℚ) ≤ (((((backcourtFiltered f.rows c).filter
            (fun r => zfield c r == z)).map (·.shot_made_flag)).sum : Nat) : ℚ)
          / ((((backcourtFiltered f.rows c).filter
            (fun r => zfield c r == z)).length : Nat) : ℚ) * 100 :=
        mul_nonneg (div_nonneg (Nat.cast_nonneg _) (Nat.cast_nonneg _)) (by norm_num)
      have h100 : (((((backcourtFiltered f.rows c).filter
            (fun r => zfield c r == z)).map (·.shot_made_flag)).sum : Nat) : ℚ)
          / ((((backcourtFiltered f.rows c).filter
            (fun r => zfield c r == z)).length : Nat) : ℚ) * 100 ≤ 100 := by
        have hc : (0 : ℚ) < ((((backcourtFiltered f.rows c).filter
            (fun r => zfield c r == z)).length : Nat) : ℚ) := Nat.cast_pos.2 hpos
        have hm : (((((backcourtFiltered f.rows c).filter
              (fun r => zfield c r == z)).map (·.shot_made_flag)).sum : Nat) : ℚ)
            ≤ ((((backcourtFiltered f.rows c).filter
              (fun r => zfield c r == z)).length : Nat) : ℚ) := Nat.cast_le.2 hle
        have hdiv := (div_le_one hc).2 hm
        linarith
      exact round1_bounds h0 h100

/-- The C9 witness frame: `shot_zone_basic` with two distinct zones, 0/1
made flags. -/
def witC9Frame : ZFrame :=
  ⟨⟨true, false, false, false, false⟩,
   [⟨"Paint", "", "", "", "", 1⟩, ⟨"Mid-Range", "", "", "", "", 0⟩]⟩

/-- C9 at a concrete frame: the zone-statistics facts hold on the two-zone
frame. -/
theorem C9_zone_stats_witness :
    (witC9Frame.rows.isEmpty = true → calculateZones witC9Frame = [])
    ∧ (findBestZoneColumn witC9Frame = none → calculateZones witC9Frame = [])
    ∧ (∀ e ∈ calculateZones witC9Frame, e.1 ≠ "Backcourt")
    ∧ (∀ e ∈ calculateZones witC9Frame, ∀ c, findBestZoneColumn witC9Frame = some c →
        e.2.1 = ((backcourtFiltered witC9Frame.rows c).filter
            (fun r => zfield c r == e.1)).length
        ∧ e.2.2.1 = (((backcourtFiltered witC9Frame.rows c).filter
            (fun r => zfield c r == e.1)).map (·.shot_made_flag)).sum
        ∧ 0 < e.2.1
        ∧ e.2.2.1 ≤ e.2.1
        ∧ e.2.2.2 = round1 (((e.2.2.1 : ℚ) / (e.2.1 : ℚ)) * 100)
        ∧ 0 ≤ e.2.2.2 ∧ e.2.2.2 ≤ 100) :=
  C9_zone_stats witC9Frame (by decide)
